import Mathlib

/-!
Verification development for the n8n TOGAF pipe (`n8n_pipe.py`).

The Python source is shallowly embedded: JSON values are an inductive type
(`Json`, with numbers modelled as integers for integer numerals and as exact
decimal values for fraction/exponent numerals, plus the `NaN`/`Infinity`
constants `json.loads` accepts), Python `None` is conflated with JSON `null`
exactly as `dict.get` does, Python exceptions are modelled with `Except`,
wall-clock times and durations are integers, and the unbounded polling loop
is run on explicit fuel together with a sufficiency lemma showing the fuel
chosen by the model can never run out before the time-based cutoff fires.
-/

set_option maxRecDepth 40000

namespace N8nPipe

/-- JSON values. Python `None` is represented by `Json.null`, matching
`dict.get`'s conflation of a missing key and a stored `null`. An integer
numeral decodes to a Python `int` (`Json.num`); a numeral with a fraction
or exponent part decodes to a Python `float`, modelled by its exact decimal
value `m * 10 ^ e` (`Json.float m e` — IEEE rounding and the overflow /
underflow of extreme numerals are abstracted; no verified behaviour depends
on a float's magnitude beyond zero versus nonzero). `Json.nan` and
`Json.inf neg` model the `NaN`, `Infinity` and `-Infinity` constants that
`json.loads` also accepts. -/
inductive Json where
  | null : Json
  | bool : Bool → Json
  | num : Int → Json
  | str : String → Json
  | arr : List Json → Json
  | obj : List (String × Json) → Json
  | float : (m : Int) → (e : Int) → Json
  | nan : Json
  | inf : (neg : Bool) → Json
  deriving Repr, BEq

/-- Python truthiness of a JSON value (`if x:`). -/
def truthy : Json → Bool
  | .null => false
  | .bool b => b
  | .num n => n != 0
  | .str s => s != ""
  | .arr xs => !xs.isEmpty
  | .obj kvs => !kvs.isEmpty
  | .float m _ => m != 0
  | .nan => true
  | .inf _ => true

/-- Python `x == s` for a JSON value against a string literal (different
types never compare equal in Python). Defined structurally so concrete runs
reduce (the derived `BEq Json` uses well-founded recursion and does not). -/
def jsonEqStr (j : Json) (s : String) : Bool :=
  match j with
  | .str t => t == s
  | _ => false

/-- `d.get(k, default)` on a Python dict decoded from JSON: the last binding
for a duplicated key wins (as in `json.loads`), a missing key yields the
default. -/
def jGetD (kvs : List (String × Json)) (k : String) (d : Json) : Json :=
  kvs.foldl (fun acc p => if p.1 = k then p.2 else acc) d

/-- `k in d` on a Python dict. -/
def jMem (kvs : List (String × Json)) (k : String) : Bool :=
  kvs.any (fun p => p.1 = k)

/-- `d[k]` on a Python dict (meaningful when `jMem kvs k`). -/
def jIdx (kvs : List (String × Json)) (k : String) : Json :=
  jGetD kvs k .null

/-- `len(x)` for sized Python values; `none` models a `TypeError`. -/
def pyLen : Json → Option Nat
  | .str s => some s.length
  | .arr xs => some xs.length
  | .obj kvs => some kvs.length
  | _ => none

/-- Decimal rendering of a model float `m * 10 ^ e` (used by `str` on a
float). Python renders a float by its shortest round-trip repr, which
coincides with the plain decimal rendering on short numerals; IEEE rounding
and the switch to scientific notation at extreme magnitudes are abstracted,
and no verified claim inspects a rendered float. -/
def floatRepr (m e : Int) : String :=
  let sign := if m < 0 then "-" else ""
  let ds := (toString m.natAbs).toList
  if 0 ≤ e then
    sign ++ String.mk ds ++ String.mk (List.replicate e.toNat '0') ++ ".0"
  else
    let k := (-e).toNat
    let padded := List.replicate (k + 1 - ds.length) '0' ++ ds
    let ip := padded.take (padded.length - k)
    let fp := (padded.drop (padded.length - k)).reverse.dropWhile (fun c => c = '0')
    sign ++ String.mk ip ++ "." ++ (if fp.isEmpty then "0" else String.mk fp.reverse)

mutual

/-- `str(x)` rendering used by f-string interpolation (best effort for
containers; the verified claims never inspect rendered container text). -/
def pyStr : Json → String
  | .null => "None"
  | .bool b => if b then "True" else "False"
  | .num n => toString n
  | .str s => s
  | .arr xs => "[" ++ pyStrList xs ++ "]"
  | .obj kvs => "\x7b" ++ pyStrObj kvs ++ "\x7d"
  | .float m e => floatRepr m e
  | .nan => "nan"
  | .inf neg => if neg then "-inf" else "inf"

def pyStrList : List Json → String
  | [] => ""
  | [x] => pyStr x
  | x :: xs => pyStr x ++ ", " ++ pyStrList xs

def pyStrObj : List (String × Json) → String
  | [] => ""
  | [(k, v)] => "'" ++ k ++ "': " ++ pyStr v
  | (k, v) :: xs => "'" ++ k ++ "': " ++ pyStr v ++ ", " ++ pyStrObj xs

end

/-- ASCII lower-casing, modelling `str.lower()` on the strings that occur. -/
def lowerStr (s : String) : String :=
  String.mk (s.toList.map Char.toLower)

/-- Substring containment on character lists (Python's `sub in s`). -/
def hasSub (nd : List Char) : List Char → Bool
  | [] => nd.isEmpty
  | c :: rest => nd.isPrefixOf (c :: rest) || hasSub nd rest

/-- Python's `sub in s` for strings. -/
def strContains (s sub : String) : Bool :=
  hasSub sub.toList s.toList

/-- Python's whitespace class for `str.strip()`. -/
def isPyWs (c : Char) : Bool :=
  c = ' ' || c = '\t' || c = '\n' || c = '\r' || c = '\x0b' || c = '\x0c'

/-- `str.strip()` (defined structurally so that concrete runs reduce). -/
def pyStrip (s : String) : String :=
  String.mk (((s.toList.dropWhile isPyWs).reverse.dropWhile isPyWs).reverse)

/-- Helper for `str.split("\n")`. -/
def splitNlAux (cur : List Char) : List Char → List String
  | [] => [String.mk cur.reverse]
  | c :: cs =>
    if c = '\n' then String.mk cur.reverse :: splitNlAux [] cs
    else splitNlAux (c :: cur) cs

/-- `str.split("\n")`: on the empty string this is `[""]`, as in Python. -/
def pySplitNl (s : String) : List String :=
  splitNlAux [] s.toList

/-- `str.startswith(pre)`. -/
def pyStartsWith (s pre : String) : Bool :=
  pre.toList.isPrefixOf s.toList

/-- `"".join(parts)`: succeeds only when every part is a string, otherwise a
`TypeError` is raised. -/
def pyJoin : List Json → Except String String
  | [] => .ok ""
  | .str s :: rest =>
    match pyJoin rest with
    | .ok r => .ok (s ++ r)
    | .error e => .error e
  | _ :: _ => .error "TypeError: sequence item: expected str instance"

/-! ## A JSON parser modelling `json.loads`

Recursive-descent on character lists, driven by fuel; `jparse` supplies fuel
that strictly exceeds any possible recursion depth for the given input. -/

/-- Skip JSON whitespace (space, tab, newline, carriage return). -/
def skipWs : List Char → List Char
  | c :: cs => if c = ' ' ∨ c = '\t' ∨ c = '\n' ∨ c = '\r' then skipWs cs else c :: cs
  | [] => []

/-- Hex digit value. -/
def hexVal (c : Char) : Option Nat :=
  if '0' ≤ c ∧ c ≤ '9' then some (c.toNat - '0'.toNat)
  else if 'a' ≤ c ∧ c ≤ 'f' then some (c.toNat - 'a'.toNat + 10)
  else if 'A' ≤ c ∧ c ≤ 'F' then some (c.toNat - 'A'.toNat + 10)
  else none

/-- Body of a JSON string literal (after the opening quote), with escapes. -/
def pStrAux (acc : List Char) : List Char → Option (String × List Char)
  | [] => none
  | '"' :: rest => some (String.mk acc.reverse, rest)
  | '\\' :: e :: rest =>
    match e with
    | '"' => pStrAux ('"' :: acc) rest
    | '\\' => pStrAux ('\\' :: acc) rest
    | '/' => pStrAux ('/' :: acc) rest
    | 'n' => pStrAux ('\n' :: acc) rest
    | 't' => pStrAux ('\t' :: acc) rest
    | 'r' => pStrAux ('\r' :: acc) rest
    | 'b' => pStrAux ('\x08' :: acc) rest
    | 'f' => pStrAux ('\x0c' :: acc) rest
    | 'u' =>
      match rest with
      | h1 :: h2 :: h3 :: h4 :: rest2 =>
        match hexVal h1, hexVal h2, hexVal h3, hexVal h4 with
        | some a, some b, some c, some d =>
          pStrAux (Char.ofNat (((a * 16 + b) * 16 + c) * 16 + d) :: acc) rest2
        | _, _, _, _ => none
      | _ => none
    | _ => none
  | c :: rest => if c.toNat < 32 then none else pStrAux (c :: acc) rest

/-- Parse a run of decimal digits. -/
def pDigits (acc : Nat) : List Char → Nat × List Char
  | c :: cs => if c.isDigit then pDigits (acc * 10 + (c.toNat - '0'.toNat)) cs else (acc, c :: cs)
  | [] => (acc, [])

/-- Parse a run of decimal digits onto an accumulated mantissa, also
counting how many digits were consumed. -/
def pDigitsCnt (acc : Nat) (cnt : Nat) : List Char → Nat × Nat × List Char
  | c :: cs =>
    if c.isDigit then pDigitsCnt (acc * 10 + (c.toNat - '0'.toNat)) (cnt + 1) cs
    else (acc, cnt, c :: cs)
  | [] => (acc, cnt, [])

/-- The integer part of a JSON number: `0`, or a nonzero digit followed by
digits. A leading zero is never followed by further digits (the JSON
grammar's `0 | [1-9][0-9]*`), which is how `json.loads` rejects `01`: the
number ends after the `0` and the leftover digit is extra data. -/
def pIntPart : List Char → Option (Nat × List Char)
  | '0' :: cs => some (0, cs)
  | c :: cs => if c.isDigit then some (pDigits (c.toNat - '0'.toNat) cs) else none
  | [] => none

/-- The optional fraction part `.digits` of a JSON number, folded onto the
integer part `n`: returns the combined mantissa, the count of fraction
digits (0 exactly when no fraction was consumed — a `.` not followed by a
digit is left in place, ending the number), and the rest. -/
def pFrac (n : Nat) : List Char → Nat × Nat × List Char
  | '.' :: c :: cs =>
    if c.isDigit then pDigitsCnt n 0 (c :: cs) else (n, 0, '.' :: c :: cs)
  | cs => (n, 0, cs)

/-- The optional exponent part `[eE][+-]?digits` of a JSON number; `none`
when absent (a dangling `e`/sign without digits is left in place, ending
the number). -/
def pExp : List Char → Option (Int × List Char)
  | c :: cs =>
    if c = 'e' ∨ c = 'E' then
      match cs with
      | '+' :: d :: ds =>
        if d.isDigit then
          let (n, rest) := pDigits 0 (d :: ds)
          some ((n : Int), rest)
        else none
      | '-' :: d :: ds =>
        if d.isDigit then
          let (n, rest) := pDigits 0 (d :: ds)
          some (-(n : Int), rest)
        else none
      | d :: ds =>
        if d.isDigit then
          let (n, rest) := pDigits 0 (d :: ds)
          some ((n : Int), rest)
        else none
      | [] => none
    else none
  | [] => none

/-- Finish a number whose integer part is `n` (negative when `neg`): with
neither fraction nor exponent the numeral decodes to a Python `int`,
otherwise to a `float` with exact decimal value `mantissa * 10 ^ e`. -/
def pNumTail (neg : Bool) (n : Nat) (rest : List Char) : Json × List Char :=
  let (m, fk, rest2) := pFrac n rest
  match pExp rest2 with
  | some (ex, rest3) =>
    (.float (if neg then -(m : Int) else (m : Int)) (ex - (fk : Int)), rest3)
  | none =>
    if fk = 0 then (.num (if neg then -(n : Int) else (n : Int)), rest2)
    else (.float (if neg then -(m : Int) else (m : Int)) (-(fk : Int)), rest2)

/-- Parse a JSON number, or one of the `NaN` / `Infinity` / `-Infinity`
constants `json.loads` also accepts at a value position. -/
def pNum : List Char → Option (Json × List Char)
  | 'N' :: 'a' :: 'N' :: rest => some (.nan, rest)
  | 'I' :: 'n' :: 'f' :: 'i' :: 'n' :: 'i' :: 't' :: 'y' :: rest => some (.inf false, rest)
  | '-' :: 'I' :: 'n' :: 'f' :: 'i' :: 'n' :: 'i' :: 't' :: 'y' :: rest =>
    some (.inf true, rest)
  | '-' :: cs =>
    match pIntPart cs with
    | some (n, rest) => some (pNumTail true n rest)
    | none => none
  | cs =>
    match pIntPart cs with
    | some (n, rest) => some (pNumTail false n rest)
    | none => none

mutual

/-- Parse one JSON value. -/
def pVal : Nat → List Char → Option (Json × List Char)
  | 0, _ => none
  | fuel + 1, cs =>
    match skipWs cs with
    | 'n' :: 'u' :: 'l' :: 'l' :: rest => some (.null, rest)
    | 't' :: 'r' :: 'u' :: 'e' :: rest => some (.bool true, rest)
    | 'f' :: 'a' :: 'l' :: 's' :: 'e' :: rest => some (.bool false, rest)
    | '"' :: rest =>
      match pStrAux [] rest with
      | some (s, rest2) => some (.str s, rest2)
      | none => none
    | '[' :: rest =>
      match skipWs rest with
      | ']' :: rest2 => some (.arr [], rest2)
      | other => match pElems fuel other with
        | some (xs, rest2) => some (.arr xs, rest2)
        | none => none
    | '\x7b' :: rest =>
      match skipWs rest with
      | '\x7d' :: rest2 => some (.obj [], rest2)
      | other => match pMembs fuel other with
        | some (kvs, rest2) => some (.obj kvs, rest2)
        | none => none
    | other => pNum other

/-- Parse the elements of a (non-empty) JSON array, after `[`. -/
def pElems : Nat → List Char → Option (List Json × List Char)
  | 0, _ => none
  | fuel + 1, cs =>
    match pVal fuel cs with
    | some (v, rest) =>
      match skipWs rest with
      | ',' :: rest2 => match pElems fuel rest2 with
        | some (vs, rest3) => some (v :: vs, rest3)
        | none => none
      | ']' :: rest2 => some ([v], rest2)
      | _ => none
    | none => none

/-- Parse the members of a (non-empty) JSON object, after the brace. -/
def pMembs : Nat → List Char → Option (List (String × Json) × List Char)
  | 0, _ => none
  | fuel + 1, cs =>
    match skipWs cs with
    | '"' :: rest =>
      match pStrAux [] rest with
      | some (k, rest2) =>
        match skipWs rest2 with
        | ':' :: rest3 =>
          match pVal fuel rest3 with
          | some (v, rest4) =>
            match skipWs rest4 with
            | ',' :: rest5 => match pMembs fuel rest5 with
              | some (kvs, rest6) => some ((k, v) :: kvs, rest6)
              | none => none
            | '\x7d' :: rest5 => some ([(k, v)], rest5)
            | _ => none
          | none => none
        | _ => none
      | none => none
    | _ => none

end

/-- `json.loads`: parse the whole text as one JSON document. -/
def jparse (s : String) : Option Json :=
  match pVal (2 * s.length + 4) s.toList with
  | some (v, rest) => if (skipWs rest).isEmpty then some v else none
  | none => none

/-! ## `Pipe.parse_response_text`

Tier 1 (`wholeDoc`) embeds the `try: data = json.loads(...)` block; it either
returns a `(content, executionId)` pair (`Sum.inl`) or falls through carrying
the `execution_id` local variable's current value (`Sum.inr`, where
`Json.null` stands for Python `None`). -/

/-- The whole-document tier of `parse_response_text` (source lines 124-139). -/
def wholeDoc (field : String) (text : String) : Sum (Json × Json) Json :=
  match jparse text with
  | some (.obj o) =>
    let eid := jGetD o "executionId" .null
    if jMem o field then .inl (jIdx o field, eid)
    else if truthy eid then .inl (jGetD o "message" (.str "Workflow started..."), eid)
    else .inr eid
  | some (.str s) => .inl (.str s, .null)
  | some _ => .inr .null
  | none => .inr .null

/-- One NDJSON line's contribution to `content_parts` (source lines 145-168),
stated standalone to express that the accumulated parts are a flat map over
the lines in document order. -/
def lineParts (l : String) : List Json :=
  let line := pyStrip l
  if line = "" then []
  else
    match jparse line with
    | none => [Json.str line]
    | some (.obj o) =>
      let etype := jGetD o "type" .null
      if jsonEqStr etype "item" then
        let c := jGetD o "content" (.str "")
        if truthy c then [c] else []
      else if jsonEqStr etype "message" then
        let c0 := jGetD o "content" (.str "")
        let c := if truthy c0 then c0 else jGetD o "data" (.str "")
        if truthy c then [c] else []
      else []
    | some _ => []

/-- One NDJSON line's effect on the `execution_id` local: `some v` when the
line parses to an object whose `executionId` is truthy (only those overwrite
it, source line 153). -/
def lineEid (l : String) : Option Json :=
  let line := pyStrip l
  if line = "" then none
  else
    match jparse line with
    | some (.obj o) =>
      let v := jGetD o "executionId" .null
      if truthy v then some v else none
    | _ => none

/-- The NDJSON tier's loop over lines (source lines 144-168): accumulates
`content_parts` and the last truthy `executionId`; a line that parses to a
non-object JSON value raises `AttributeError` (`event.get` on a non-dict),
which only `json.JSONDecodeError` handlers would not catch. -/
def ndjsonFold : List String → List Json → Json → Except String (List Json × Json)
  | [], parts, eid => .ok (parts, eid)
  | l :: ls, parts, eid =>
    let line := pyStrip l
    if line = "" then ndjsonFold ls parts eid
    else
      match jparse line with
      | none => ndjsonFold ls (parts ++ [Json.str line]) eid
      | some (.obj o) =>
        let v := jGetD o "executionId" .null
        let eid2 := if truthy v then v else eid
        let etype := jGetD o "type" .null
        if jsonEqStr etype "item" then
          let c := jGetD o "content" (.str "")
          if truthy c then ndjsonFold ls (parts ++ [c]) eid2
          else ndjsonFold ls parts eid2
        else if jsonEqStr etype "message" then
          let c0 := jGetD o "content" (.str "")
          let c := if truthy c0 then c0 else jGetD o "data" (.str "")
          if truthy c then ndjsonFold ls (parts ++ [c]) eid2
          else ndjsonFold ls parts eid2
        else ndjsonFold ls parts eid2
      | some _ => .error "AttributeError: .get on a non-dict JSON value"

/-- `Pipe.parse_response_text` (source lines 112-174). The returned pair is
`(content, execution_id)` with `Json.null` standing for an absent handle;
`Except.error` models an uncaught Python exception. -/
def parse_response_text (field : String) (resp : String) : Except String (Json × Json) :=
  let text := pyStrip resp
  match wholeDoc field text with
  | .inl r => .ok r
  | .inr eid0 =>
    if strContains text "\n" || pyStartsWith text "\x7b\"type\":" then
      match ndjsonFold (pySplitNl text) [] eid0 with
      | .error e => .error e
      | .ok (parts, eid) =>
        if parts.isEmpty then .ok (.str text, eid)
        else
          match pyJoin parts with
          | .ok s => .ok (.str s, eid)
          | .error e => .error e
    else .ok (.str text, eid0)

/-! ## Valves and the event emitter -/

/-- The `Pipe.Valves` configuration (times and durations as integers). -/
structure Valves where
  n8n_url : String := "https://n8n.socrates-hlapolosa.org/webhook/togaf-architect-v2"
  n8n_status_url : String := "https://n8n.socrates-hlapolosa.org/webhook/togaf-status"
  n8n_bearer_token : String := "testAuth"
  input_field : String := "chatInput"
  response_field : String := "output"
  emit_interval : Int := 1
  enable_status_indicator : Bool := true
  poll_interval : Int := 5
  max_poll_time : Int := 600

/-- One event delivered to the `__event_emitter__` sink. -/
inductive Event where
  | message : String → Event
  | status : (level : String) → (description : String) → (done : Bool) → Event
  deriving Repr, BEq, DecidableEq

/-- Is the event a status event? -/
def Event.isStatus : Event → Bool
  | .status _ _ _ => true
  | _ => false

/-- Is the event a status event with `done = true`? -/
def Event.isDoneStatus : Event → Bool
  | .status _ _ d => d
  | _ => false

/-- Is the event a message event? -/
def Event.isMessage : Event → Bool
  | .message _ => true
  | _ => false

/-- `Pipe.emit_message` (source lines 70-82): delivered iff a sink is
present; the message channel is unthrottled. -/
def emit_message (emitter : Bool) (content : String) : List Event :=
  if emitter then [.message content] else []

/-- `Pipe.emit_status` (source lines 84-110): delivered iff a sink is
present, the status indicator is enabled, and either the throttle interval
has elapsed since `last_emit_time` or the emission is terminal (`done`).
Returns the delivered events and the updated `last_emit_time`. -/
def emit_status (v : Valves) (emitter : Bool) (lastEmit : Int) (now : Int)
    (level : String) (message : String) (done : Bool) : List Event × Int :=
  if emitter && v.enable_status_indicator
      && (decide (v.emit_interval ≤ now - lastEmit) || done) then
    ([.status level message done], now)
  else ([], lastEmit)

/-! ## `Pipe.format_final_response` -/

/-- `Pipe.format_final_response` (source lines 287-322). `Except.error`
models the `TypeError`/`AttributeError` raised on payloads that are neither
a string nor a dict, or whose `artifacts` value has no length. -/
def format_final_response (result : Json) : Except String String :=
  match result with
  | .str s => .ok s
  | .obj o =>
    let project := jGetD o "projectName" (.str "Unknown")
    let repo := jGetD o "repositoryName" (.str "unknown")
    let artifacts := jGetD o "artifacts" (.arr [])
    let domain := jGetD o "domain" (.str "Technology")
    match pyLen artifacts with
    | some n =>
      .ok ("**TOGAF Enterprise Architecture Complete**\n\n**Repository:** `"
        ++ pyStr repo ++ "`\n**Project:** " ++ pyStr project ++ "\n**Domain:** "
        ++ pyStr domain ++ "\n\n**Generated Artifacts (" ++ toString n
        ++ " files):**\n\n**ArchiMate 3.1 Models:**\n"
        ++ "- docs/architecture/compliance.archimate\n"
        ++ "- docs/architecture/business-canvas.archimate\n"
        ++ "- docs/architecture/business-architecture.archimate\n"
        ++ "- docs/architecture/technology-recommendations.archimate\n"
        ++ "- docs/architecture/application-architecture.archimate\n"
        ++ "- docs/architecture/infrastructure-architecture.archimate\n"
        ++ "- docs/architecture/implementation-plan.archimate\n\n"
        ++ "**Documentation:**\n- docs/requirements.md\n- docs/PRD.md\n\n"
        ++ "**Deployment:**\n- docs/deployment/application.oam.yaml\n\n"
        ++ "[View Repository](https://github.com/shlapolosa/" ++ pyStr repo ++ ")\n")
    | none => .error "TypeError: object has no len"
  | _ => .error "AttributeError: .get on a non-dict result"

/-! ## `Pipe.poll_for_status`

The loop is driven by explicit fuel; the time-based cutoff is checked before
the fuel is consulted, mirroring the source where the timeout test is the
first action of every iteration, and a sufficiency lemma (below) shows the
fuel supplied by `poll_for_status` cannot run out first. Elapsed time is
`t`; each iteration's fetch is instantaneous and each pause advances `t` by
`poll_interval`, so the fetch of attempt `n + 1` happens at elapsed time
`n * poll_interval`. -/

/-- What the status endpoint does for one fetch attempt: raise a transport
error, or answer with an HTTP status code and a JSON body. -/
inductive PollEvent where
  | netErr : PollEvent
  | resp : (httpStatus : Nat) → (body : Json) → PollEvent

/-- How one `poll_for_status` run ended. `raised` is an uncaught Python
exception (propagating to `pipe`'s handler); `fuelOut` is the model-only
marker for fuel exhaustion, which `pollFuel_sufficient` rules out. -/
inductive PollOutcome where
  | timedOut : PollOutcome
  | notFound : PollOutcome
  | wfError : PollOutcome
  | success : PollOutcome
  | raised : String → PollOutcome
  | fuelOut : PollOutcome
  deriving Repr, BEq, DecidableEq

/-- Result of a `poll_for_status` run: the events it delivered, the number
of fetch attempts (`poll_count`), elapsed time on exit, the throttle's
`last_emit_time` on exit, and the outcome. On every outcome other than
`raised`/`fuelOut` the Python function returns `""`. -/
structure PollResult where
  events : List Event
  fetches : Nat
  tEnd : Int
  lastEmit : Int
  outcome : PollOutcome
  deriving Repr

/-- Prepend events to a poll result. -/
def PollResult.withEvents (pre : List Event) (r : PollResult) : PollResult :=
  { r with events := pre ++ r.events }

/-- Outcome of processing one HTTP-200 status body inside the loop:
either keep polling (with updated `last_message`, throttle state and events
streamed this iteration) or stop with a terminal outcome. -/
inductive StepRes where
  | next : (newLastMsg : String) → (newLe : Int) → (evs : List Event) → StepRes
  | stop : (evs : List Event) → (newLe : Int) → (out : PollOutcome) → StepRes

/-- The events a step result carries. -/
def StepRes.evs : StepRes → List Event
  | .next _ _ e => e
  | .stop e _ _ => e

/-- The body of one polling iteration for a 200 response with JSON-object
body `st` (source lines 216-272). `now` is the wall-clock time, `pc` the
`poll_count` before this iteration, `lastMsg` the `last_message` local, `le`
the throttle's `last_emit_time`. -/
def pollStep (v : Valves) (em : Bool) (now : Int) (pc : Nat) (lastMsg : String)
    (le : Int) (st : List (String × Json)) : StepRes :=
  let errVal := jGetD st "error" .null
  if truthy errVal then
    match errVal with
    | .str errMsg =>
      if strContains (lowerStr errMsg) "not found" then
        if pc + 1 < 3 then .next lastMsg le []
        else .stop (emit_message em
          "\n\n⚠️ **Workflow execution not found.** It may have completed or expired.\n")
          le .notFound
      else .stop (emit_message em ("\n\n❌ **Workflow error:** " ++ errMsg ++ "\n"))
        le .wfError
    | _ => .stop [] le (.raised "AttributeError: .lower on a non-str error")
  else
    let currentMessage := jGetD st "message" (.str "")
    let phase := jGetD st "phase" (.str "unknown")
    let progress := jGetD st "progress" (.num 0)
    let changed := truthy currentMessage && !(jsonEqStr currentMessage lastMsg)
    if changed then
      match currentMessage with
      | .str m =>
        let evMsg := emit_message em (m.replace "\\n" "\n" ++ "\n\n---\n\n")
        let stEv := emit_status v em le now "info"
          ("Phase: " ++ pyStr phase ++ " | Progress: " ++ pyStr progress ++ "%")
          (truthy (jGetD st "done" (.bool false)))
        if truthy (jGetD st "done" .null) then
          let result := jGetD st "result" .null
          if truthy result then
            match format_final_response result with
            | .ok fr => .stop (evMsg ++ stEv.1 ++ emit_message em ("\n" ++ fr)) stEv.2 .success
            | .error e => .stop (evMsg ++ stEv.1) stEv.2 (.raised e)
          else .stop (evMsg ++ stEv.1) stEv.2 .success
        else .next m stEv.2 (evMsg ++ stEv.1)
      | _ => .stop [] le (.raised "AttributeError: .replace on a non-str message")
    else
      if truthy (jGetD st "done" .null) then
        let result := jGetD st "result" .null
        if truthy result then
          match format_final_response result with
          | .ok fr => .stop (emit_message em ("\n" ++ fr)) le .success
          | .error e => .stop [] le (.raised e)
        else .stop [] le .success
      else .next lastMsg le []

/-- The `while True` loop of `poll_for_status` (source lines 198-285).
State: `t` elapsed seconds, `pc` the `poll_count` so far, `lastMsg` the
`last_message` local (always a string: a non-string status message raises
before it could be stored), `le` the throttle's `last_emit_time`. `t0` is
the wall-clock time at which polling began and `env n` is the status
endpoint's behaviour on the `n`-th fetch (0-based). The timeout test is the
first action of every iteration, before the fuel is consulted. -/
def pollLoop (v : Valves) (emitter : Bool) (t0 : Int) (env : Nat → PollEvent) :
    Nat → Int → Nat → String → Int → PollResult
  | fuel, t, pc, lastMsg, le =>
    if v.max_poll_time < t then
      ⟨emit_message emitter
        ("\n\n⏱️ **Workflow timed out** after " ++ toString t
          ++ "s. It may still be running in the background.\n"),
        pc, t, le, .timedOut⟩
    else
      match fuel with
      | 0 => ⟨[], pc, t, le, .fuelOut⟩
      | fuel + 1 =>
        match env pc with
        | .netErr =>
          (pollLoop v emitter t0 env fuel (t + v.poll_interval) (pc + 1) lastMsg le).withEvents
            (emit_message emitter
              ("\n⚠️ _Network issue, retrying... (" ++ toString (pc + 1) ++ ")_\n"))
        | .resp httpStatus body =>
          if httpStatus = 200 then
            match body with
            | .obj st =>
              match pollStep v emitter (t0 + t) pc lastMsg le st with
              | .next lm le2 evs =>
                (pollLoop v emitter t0 env fuel (t + v.poll_interval) (pc + 1) lm le2).withEvents
                  evs
              | .stop evs le2 out => ⟨evs, pc + 1, t, le2, out⟩
            | _ => ⟨[], pc + 1, t, le, .raised "AttributeError: .get on a non-dict status"⟩
          else
            pollLoop v emitter t0 env fuel (t + v.poll_interval) (pc + 1) lastMsg le

/-- Fuel that outlasts the time cutoff: more iterations than
`max_poll_time / poll_interval` can ever run before `elapsed > max_poll_time`. -/
def pollFuel (v : Valves) : Nat :=
  v.max_poll_time.toNat / v.poll_interval.toNat + 2

/-- `Pipe.poll_for_status` (source lines 176-285): emits the start banner,
then runs the loop from elapsed time 0 with `poll_count = 0` and
`last_message = ""`. -/
def poll_for_status (v : Valves) (emitter : Bool) (executionId : String)
    (t0 : Int) (le : Int) (env : Nat → PollEvent) : PollResult :=
  (pollLoop v emitter t0 env (pollFuel v) 0 0 "" le).withEvents
    (emit_message emitter
      ("🚀 **TOGAF Workflow Started**\n\n_Execution ID: "
        ++ (executionId.take 20) ++ "..._\n\n---\n\n"))

/-! ## `Pipe.pipe` -/

/-- What the workflow start endpoint does: raise a transport error, or
answer with an HTTP status code and a body text. -/
inductive StartResult where
  | raised : String → StartResult
  | resp : (httpStatus : Nat) → (text : String) → StartResult

/-- How one `pipe` invocation ended. `raisedOut` is an exception escaping
`pipe` itself (raised outside the `try` block); `caughtError` is the
`except Exception` handler path; `syncDone` is a completion with no polling;
`polled o` is a completion whose polling phase ended with `o`. -/
inductive PipeOutcome where
  | raisedOut : String → PipeOutcome
  | emptyRejected : PipeOutcome
  | caughtError : String → PipeOutcome
  | syncDone : PipeOutcome
  | polled : PollOutcome → PipeOutcome
  deriving Repr, BEq, DecidableEq

/-- Result of a `pipe` invocation: delivered events, number of upstream HTTP
requests issued (start call plus status fetches), and the return value
(`Except.error` models an exception escaping `pipe`). -/
structure PipeResult where
  events : List Event
  calls : Nat
  ret : Except String Json
  outcome : PipeOutcome
  deriving Repr

/-- `messages[-1]["content"]` (source line 347, evaluated outside the `try`
block, so its exceptions escape `pipe`). -/
def lastMessageContent (messages : Json) : Except String Json :=
  match messages with
  | .arr xs =>
    match xs.getLast? with
    | some (.obj o) =>
      if jMem o "content" then .ok (jIdx o "content")
      else .error "KeyError: content"
    | some _ => .error "TypeError: message not a dict"
    | none => .error "IndexError: list index out of range"
  | _ => .error "TypeError: messages not a list"

/-- The `except Exception` handler of `pipe` (source lines 395-408): a
terminal error status, then the error streamed on the message channel, then
`return ""`. -/
def pipeHandler (v : Valves) (emitter : Bool) (pre : List Event) (calls : Nat)
    (now le : Int) (e : String) : PipeResult :=
  let sE := emit_status v emitter le now "error" ("Error: " ++ e) true
  let evM := emit_message emitter ("\n\n❌ **Error:** " ++ e ++ "\n")
  ⟨pre ++ sE.1 ++ evM, calls, .ok (.str ""), .caughtError e⟩

/-- `Pipe.pipe` (source lines 324-411). `t0` is the wall-clock time of the
invocation (everything before the first inter-poll pause happens at `t0`),
`le0` the throttle's `last_emit_time` on entry, `start` the start endpoint's
behaviour, `penv` the status endpoint's behaviour per fetch. -/
def pipeRun (v : Valves) (emitter : Bool) (t0 le0 : Int)
    (body : List (String × Json)) (start : StartResult)
    (penv : Nat → PollEvent) : PipeResult :=
  let s1 := emit_status v emitter le0 t0 "info" "Starting TOGAF Workflow..." false
  let ev1 := s1.1
  let le1 := s1.2
  let messages := jGetD body "messages" (.arr [])
  if !truthy messages then
    let s2 := emit_status v emitter le1 t0 "error" "No messages found in the request body" true
    ⟨ev1 ++ s2.1, 0, .ok (.str "No messages found in the request body"), .emptyRejected⟩
  else
    match lastMessageContent messages with
    | .error e => ⟨ev1, 0, .error e, .raisedOut e⟩
    | .ok _question =>
      let s3 := emit_status v emitter le1 t0 "info" "Sending request to n8n..." false
      let ev3 := s3.1
      let le3 := s3.2
      match start with
      | .raised e => pipeHandler v emitter (ev1 ++ ev3) 1 t0 le3 e
      | .resp httpStatus text =>
        if httpStatus ≠ 200 ∧ httpStatus ≠ 202 then
          pipeHandler v emitter (ev1 ++ ev3) 1 t0 le3
            ("HTTP " ++ toString httpStatus ++ ": " ++ text)
        else
          match parse_response_text v.response_field text with
          | .error e => pipeHandler v emitter (ev1 ++ ev3) 1 t0 le3 e
          | .ok (content, execId) =>
            if truthy execId && v.n8n_status_url != "" then
              let s4 := emit_status v emitter le3 t0 "info"
                "Workflow accepted, polling for status..." false
              match execId with
              | .str eid =>
                let pr := poll_for_status v emitter eid t0 s4.2 penv
                match pr.outcome with
                | .raised e =>
                  pipeHandler v emitter (ev1 ++ ev3 ++ s4.1 ++ pr.events)
                    (1 + pr.fetches) (t0 + pr.tEnd) pr.lastEmit e
                | .fuelOut =>
                  ⟨ev1 ++ ev3 ++ s4.1 ++ pr.events, 1 + pr.fetches,
                    .error "model: fuel exhausted", .polled .fuelOut⟩
                | out =>
                  let sC := emit_status v emitter pr.lastEmit (t0 + pr.tEnd)
                    "info" "Complete" true
                  ⟨ev1 ++ ev3 ++ s4.1 ++ pr.events ++ sC.1, 1 + pr.fetches,
                    .ok (.str ""), .polled out⟩
              | _ =>
                pipeHandler v emitter (ev1 ++ ev3 ++ s4.1) 1 t0 s4.2
                  "TypeError: slicing a non-str executionId"
            else
              let sC := emit_status v emitter le3 t0 "info" "Complete" true
              ⟨ev1 ++ ev3 ++ sC.1, 1,
                .ok (if truthy content then content else .str ""), .syncDone⟩

/-! ## Helper lemmas -/

/-- A terminal (`done = true`) status emission always fires when the sink is
present and the indicator enabled, and resets `last_emit_time` to `now`. -/
theorem emit_status_done (v : Valves) (le now : Int) (l m : String)
    (hflag : v.enable_status_indicator = true) :
    emit_status v true le now l m true = ([.status l m true], now) := by
  simp [emit_status, hflag]

/-- `emit_status` delivers either nothing or exactly the one status event. -/
theorem emit_status_cases (v : Valves) (em : Bool) (le now : Int) (l m : String) (d : Bool) :
    emit_status v em le now l m d = ([], le) ∨
    emit_status v em le now l m d = ([.status l m d], now) := by
  unfold emit_status
  split
  · exact .inr rfl
  · exact .inl rfl

/-- With the status indicator disabled, `emit_status` delivers nothing and
leaves the throttle state untouched. -/
theorem emit_status_flag_off (v : Valves) (em : Bool) (le now : Int)
    (l m : String) (d : Bool) (hflag : v.enable_status_indicator = false) :
    emit_status v em le now l m d = ([], le) := by
  simp [emit_status, hflag]

/-- Is the JSON value a string? (the shapes `"".join` accepts). -/
def isStrJson : Json → Bool
  | .str _ => true
  | _ => false

/-- A line the NDJSON loop can process without raising: blank, unparseable
(kept verbatim), or a JSON object whose contributed content parts are
strings. -/
def lineSafe (l : String) : Bool :=
  (pyStrip l == "") ||
    (match jparse (pyStrip l) with
     | none => true
     | some (.obj _) => (lineParts l).all isStrJson
     | some _ => false)

/-- Processing one good line (blank, unparseable, or object-valued) appends
exactly `lineParts l` to the accumulator and updates the `executionId`
exactly by `lineEid l`. -/
theorem ndjsonFold_cons_good (l : String) (ls : List String) (parts0 : List Json) (eid0 : Json)
    (hgood : pyStrip l = "" ∨ jparse (pyStrip l) = none ∨
      ∃ o, jparse (pyStrip l) = some (.obj o)) :
    ndjsonFold (l :: ls) parts0 eid0
      = ndjsonFold ls (parts0 ++ lineParts l) ((lineEid l).getD eid0) := by
  rcases hgood with h | h | ⟨o, h⟩
  · simp [ndjsonFold, lineParts, lineEid, h]
  · by_cases hl : pyStrip l = ""
    · simp [ndjsonFold, lineParts, lineEid, hl]
    · simp [ndjsonFold, lineParts, lineEid, h, hl]
  · by_cases hl : pyStrip l = ""
    · simp [ndjsonFold, lineParts, lineEid, hl]
    · simp only [ndjsonFold, lineParts, lineEid, h, hl, if_neg hl]
      split_ifs <;> simp

/-- Characterization of a successful NDJSON pass: the accumulated content
parts are the per-line contributions in document order, and the final
`executionId` is the left fold of per-line updates. -/
theorem ndjsonFold_ok_parts_eid : ∀ (ls : List String) (parts0 : List Json) (eid0 : Json)
    (parts : List Json) (eid : Json), ndjsonFold ls parts0 eid0 = .ok (parts, eid) →
    parts = parts0 ++ ls.flatMap lineParts ∧
    eid = ls.foldl (fun a l => (lineEid l).getD a) eid0 := by
  intro ls
  induction ls with
  | nil =>
    intro parts0 eid0 parts eid h
    simp [ndjsonFold] at h
    simp [h.1.symm, h.2.symm]
  | cons l ls ih =>
    intro parts0 eid0 parts eid h
    have hgood : pyStrip l = "" ∨ jparse (pyStrip l) = none ∨
        ∃ o, jparse (pyStrip l) = some (.obj o) := by
      by_cases hl : pyStrip l = ""
      · exact .inl hl
      · cases hj : jparse (pyStrip l) with
        | none => exact .inr (.inl rfl)
        | some j =>
          cases j with
          | obj o => exact .inr (.inr ⟨o, rfl⟩)
          | null => exfalso; simp [ndjsonFold, hl, hj] at h
          | bool b => exfalso; simp [ndjsonFold, hl, hj] at h
          | num n => exfalso; simp [ndjsonFold, hl, hj] at h
          | str t => exfalso; simp [ndjsonFold, hl, hj] at h
          | arr xs => exfalso; simp [ndjsonFold, hl, hj] at h
          | float m e => exfalso; simp [ndjsonFold, hl, hj] at h
          | nan => exfalso; simp [ndjsonFold, hl, hj] at h
          | inf b => exfalso; simp [ndjsonFold, hl, hj] at h
    rw [ndjsonFold_cons_good l ls parts0 eid0 hgood] at h
    obtain ⟨h1, h2⟩ := ih _ _ _ _ h
    refine ⟨?_, by simpa using h2⟩
    simpa [List.append_assoc] using h1

/-- `lineEid` only ever yields truthy handles (line 153's guard). -/
theorem lineEid_truthy (l : String) (v : Json) (h : lineEid l = some v) :
    truthy v = true := by
  by_cases hl : pyStrip l = ""
  · simp [lineEid, hl] at h
  · cases hj : jparse (pyStrip l) with
    | none => simp [lineEid, hl, hj] at h
    | some j =>
      cases j with
      | obj o =>
        by_cases ht : truthy (jGetD o "executionId" Json.null) = true
        · simp [lineEid, hl, hj, ht] at h
          exact h ▸ ht
        · simp [lineEid, hl, hj, ht] at h
      | null => simp [lineEid, hl, hj] at h
      | bool b => simp [lineEid, hl, hj] at h
      | num n => simp [lineEid, hl, hj] at h
      | str t => simp [lineEid, hl, hj] at h
      | arr xs => simp [lineEid, hl, hj] at h
      | float m e => simp [lineEid, hl, hj] at h
      | nan => simp [lineEid, hl, hj] at h
      | inf b => simp [lineEid, hl, hj] at h

/-- A truthy `executionId` is never cleared by the NDJSON line fold. -/
theorem foldl_lineEid_truthy (ls : List String) (e0 : Json) (h : truthy e0 = true) :
    truthy (ls.foldl (fun a l => (lineEid l).getD a) e0) = true := by
  induction ls generalizing e0 with
  | nil => exact h
  | cons l ls ih =>
    cases hl : lineEid l with
    | none => simpa [hl] using ih e0 h
    | some v => simpa [hl] using ih v (lineEid_truthy l v hl)

/-- The fold of `executionId` updates keeps the last truthy occurrence: it
equals the first `lineEid` hit scanning the lines in reverse order. -/
theorem foldl_lineEid_eq_findSome (ls : List String) (e0 : Json) :
    ls.foldl (fun a l => (lineEid l).getD a) e0
      = ((ls.reverse.findSome? lineEid).getD e0) := by
  induction ls generalizing e0 with
  | nil => rfl
  | cons l ls ih =>
    rw [List.foldl_cons, ih ((lineEid l).getD e0), List.reverse_cons,
      List.findSome?_append]
    cases h : List.findSome? lineEid ls.reverse with
    | none => cases hl : lineEid l <;> simp [List.findSome?, hl, Option.orElse]
    | some v => simp [Option.orElse]

/-- `"".join` succeeds on a list of strings. -/
theorem pyJoin_ok (parts : List Json) (h : parts.all isStrJson = true) :
    ∃ s, pyJoin parts = .ok s := by
  induction parts with
  | nil => exact ⟨"", rfl⟩
  | cons p ps ih =>
    simp only [List.all_cons, Bool.and_eq_true] at h
    obtain ⟨hp, hps⟩ := h
    obtain ⟨r, hr⟩ := ih hps
    cases p with
    | str s => exact ⟨s ++ r, by simp [pyJoin, hr]⟩
    | null => simp [isStrJson] at hp
    | bool b => simp [isStrJson] at hp
    | num n => simp [isStrJson] at hp
    | arr xs => simp [isStrJson] at hp
    | obj o => simp [isStrJson] at hp
    | float m e => simp [isStrJson] at hp
    | nan => simp [isStrJson] at hp
    | inf b => simp [isStrJson] at hp

/-- A list of safe lines folds without raising, into string parts. -/
theorem ndjsonFold_safe : ∀ (ls : List String) (parts0 : List Json) (eid0 : Json),
    (∀ l ∈ ls, lineSafe l = true) → parts0.all isStrJson = true →
    ∃ parts eid, ndjsonFold ls parts0 eid0 = .ok (parts, eid) ∧
      parts.all isStrJson = true := by
  intro ls
  induction ls with
  | nil => intro parts0 eid0 _ hp; exact ⟨parts0, eid0, rfl, hp⟩
  | cons l ls ih =>
    intro parts0 eid0 hsafe hp
    have hl := hsafe l (by simp)
    have hrest : ∀ x ∈ ls, lineSafe x = true := fun x hx => hsafe x (by simp [hx])
    unfold lineSafe at hl
    by_cases hblank : pyStrip l = ""
    · rw [ndjsonFold_cons_good l ls parts0 eid0 (.inl hblank)]
      exact ih _ _ hrest (by simp [lineParts, hblank, hp])
    · rw [Bool.or_eq_true] at hl
      replace hl := hl.resolve_left (by simpa using hblank)
      cases hj : jparse (pyStrip l) with
      | none =>
        rw [ndjsonFold_cons_good l ls parts0 eid0 (.inr (.inl hj))]
        refine ih _ _ hrest ?_
        simp [List.all_append, hp, lineParts, hj, hblank, isStrJson]
      | some j =>
        rw [hj] at hl
        cases j with
        | obj o =>
          rw [ndjsonFold_cons_good l ls parts0 eid0 (.inr (.inr ⟨o, hj⟩))]
          refine ih _ _ hrest ?_
          simp only [List.all_append, Bool.and_eq_true]
          exact ⟨hp, hl⟩
        | null => exact absurd hl (by simp)
        | bool b => exact absurd hl (by simp)
        | num n => exact absurd hl (by simp)
        | str t => exact absurd hl (by simp)
        | arr xs => exact absurd hl (by simp)
        | float m e => exact absurd hl (by simp)
        | nan => exact absurd hl (by simp)
        | inf b => exact absurd hl (by simp)

/-- Projections of `PollResult.withEvents`. -/
@[simp] theorem withEvents_events (pre : List Event) (r : PollResult) :
    (r.withEvents pre).events = pre ++ r.events := rfl

@[simp] theorem withEvents_fetches (pre : List Event) (r : PollResult) :
    (r.withEvents pre).fetches = r.fetches := rfl

@[simp] theorem withEvents_tEnd (pre : List Event) (r : PollResult) :
    (r.withEvents pre).tEnd = r.tEnd := rfl

@[simp] theorem withEvents_lastEmit (pre : List Event) (r : PollResult) :
    (r.withEvents pre).lastEmit = r.lastEmit := rfl

@[simp] theorem withEvents_outcome (pre : List Event) (r : PollResult) :
    (r.withEvents pre).outcome = r.outcome := rfl

/-- The message channel never carries status events. -/
@[simp] theorem emit_message_no_status (em : Bool) (c : String) :
    (emit_message em c).all (fun e => !e.isStatus) = true := by
  cases em <;> simp [emit_message, Event.isStatus]

/-- With the indicator disabled, one polling step delivers no status event. -/
theorem pollStep_no_status (v : Valves) (em : Bool) (now : Int) (pc : Nat)
    (lastMsg : String) (le : Int) (st : List (String × Json))
    (hflag : v.enable_status_indicator = false) :
    (pollStep v em now pc lastMsg le st).evs.all (fun e => !e.isStatus) = true := by
  simp only [pollStep]
  split
  · split
    · split_ifs <;> simp [StepRes.evs]
    · simp [StepRes.evs]
  · split
    · split
      · split_ifs <;>
          first
            | (split <;> simp [StepRes.evs, emit_status_flag_off v em _ _ _ _ _ hflag])
            | simp [StepRes.evs, emit_status_flag_off v em _ _ _ _ _ hflag]
      · simp [StepRes.evs]
    · split_ifs <;>
        first
          | (split <;> simp [StepRes.evs])
          | simp [StepRes.evs]

/-- With the indicator disabled, the polling loop delivers no status event
on any path (its only status emissions go through `emit_status`). -/
theorem pollLoop_no_status (v : Valves) (em : Bool) (t0 : Int) (env : Nat → PollEvent)
    (hflag : v.enable_status_indicator = false) :
    ∀ (fuel : Nat) (t : Int) (pc : Nat) (lastMsg : String) (le : Int),
      (pollLoop v em t0 env fuel t pc lastMsg le).events.all (fun e => !e.isStatus) = true := by
  intro fuel
  induction fuel with
  | zero =>
    intro t pc lastMsg le
    rw [pollLoop]
    split <;> simp
  | succ n ih =>
    intro t pc lastMsg le
    rw [pollLoop]
    split
    · simp
    · cases henv : env pc with
      | netErr => simp [ih]
      | resp hs body =>
        by_cases hst : hs = 200
        · subst hst
          cases body with
          | obj o =>
            have hev := pollStep_no_status v em (t0 + t) pc lastMsg le o hflag
            cases hstep : pollStep v em (t0 + t) pc lastMsg le o with
            | next lm le2 evs =>
              rw [hstep] at hev
              simp only [StepRes.evs] at hev
              simp [hstep, List.all_append, hev, ih]
            | stop evs le2 out =>
              rw [hstep] at hev
              simp only [StepRes.evs] at hev
              simp [hstep, hev]
          | null => simp [ih]
          | bool b => simp [ih]
          | num nn => simp [ih]
          | str s => simp [ih]
          | arr xs => simp [ih]
          | float m e => simp [ih]
          | nan => simp [ih]
          | inf b => simp [ih]
        · simp [hst, ih]

/-- Invariants of one polling step's terminal results: a step never ends in
`timedOut`/`fuelOut` (those belong to the loop), and with a sink present the
`notFound` and `wfError` terminals always carry a message-channel event. -/
def stepOk (em : Bool) : StepRes → Prop
  | .next _ _ _ => True
  | .stop evs _ out => out ≠ .timedOut ∧ out ≠ .fuelOut ∧
      (em = true → (out = .notFound ∨ out = .wfError) → evs.any Event.isMessage = true)

theorem stepOk_next (em : Bool) (lm : String) (le : Int) (evs : List Event) :
    stepOk em (.next lm le evs) := trivial

theorem stepOk_notFound (em : Bool) (msg : String) (le : Int) :
    stepOk em (.stop (emit_message em msg) le .notFound) :=
  ⟨by simp, by simp, fun hem _ => by subst hem; simp [emit_message, Event.isMessage]⟩

theorem stepOk_wfError (em : Bool) (msg : String) (le : Int) :
    stepOk em (.stop (emit_message em msg) le .wfError) :=
  ⟨by simp, by simp, fun hem _ => by subst hem; simp [emit_message, Event.isMessage]⟩

theorem stepOk_success (em : Bool) (evs : List Event) (le : Int) :
    stepOk em (.stop evs le .success) :=
  ⟨by simp, by simp, fun _ h => by rcases h with h | h <;> exact absurd h (by simp)⟩

theorem stepOk_raised (em : Bool) (evs : List Event) (le : Int) (e : String) :
    stepOk em (.stop evs le (.raised e)) :=
  ⟨by simp, by simp, fun _ h => by rcases h with h | h <;> exact absurd h (by simp)⟩

/-- Every result of `pollStep` satisfies `stepOk`. -/
theorem pollStep_spec (v : Valves) (em : Bool) (now : Int) (pc : Nat)
    (lastMsg : String) (le : Int) (st : List (String × Json)) :
    stepOk em (pollStep v em now pc lastMsg le st) := by
  simp only [pollStep]
  split
  · split
    · split_ifs <;>
        first
          | exact stepOk_next ..
          | exact stepOk_notFound ..
          | exact stepOk_wfError ..
    · exact stepOk_raised ..
  · split
    · split
      · split_ifs <;>
          first
            | exact stepOk_next ..
            | (split <;> first | exact stepOk_success .. | exact stepOk_raised ..)
            | exact stepOk_success ..
      · exact stepOk_raised ..
    · split_ifs <;>
        first
          | exact stepOk_next ..
          | (split <;> first | exact stepOk_success .. | exact stepOk_raised ..)
          | exact stepOk_success ..

/-- With enough fuel relative to the time budget, the loop's model-only
`fuelOut` marker is unreachable: the time cutoff always fires first. -/
theorem pollLoop_fuel (v : Valves) (em : Bool) (t0 : Int) (env : Nat → PollEvent)
    (hI : 0 < v.poll_interval) :
    ∀ (fuel : Nat) (t : Int) (pc : Nat) (lastMsg : String) (le : Int),
      v.max_poll_time < t + (fuel : Int) * v.poll_interval →
      (pollLoop v em t0 env fuel t pc lastMsg le).outcome ≠ .fuelOut := by
  intro fuel
  induction fuel with
  | zero =>
    intro t pc lastMsg le hM
    rw [pollLoop]
    rw [if_pos (by simpa using hM)]
    simp
  | succ n ih =>
    intro t pc lastMsg le hM
    have hM2 : v.max_poll_time < (t + v.poll_interval) + (n : Int) * v.poll_interval := by
      push_cast at hM
      linarith
    rw [pollLoop]
    split
    · simp
    · cases henv : env pc with
      | netErr =>
        simpa using ih (t + v.poll_interval) (pc + 1) lastMsg le hM2
      | resp hs body =>
        by_cases hst : hs = 200
        · subst hst
          cases body with
          | obj o =>
            have hok := pollStep_spec v em (t0 + t) pc lastMsg le o
            cases hstep : pollStep v em (t0 + t) pc lastMsg le o with
            | next lm le2 evs =>
              simpa [hstep] using ih (t + v.poll_interval) (pc + 1) lm le2 hM2
            | stop evs le2 out =>
              rw [hstep] at hok
              simpa [hstep] using hok.2.1
          | null => simp
          | bool b => simp
          | num nn => simp
          | str s => simp
          | arr xs => simp
          | float m e => simp
          | nan => simp
          | inf b => simp
        · simpa [hst] using ih (t + v.poll_interval) (pc + 1) lastMsg le hM2

/-- With a sink present, the loop's `timedOut`, `notFound` and `wfError`
outcomes always deliver a message-channel explanation. -/
theorem pollLoop_fail_message (v : Valves) (t0 : Int) (env : Nat → PollEvent) :
    ∀ (fuel : Nat) (t : Int) (pc : Nat) (lastMsg : String) (le : Int),
      ((pollLoop v true t0 env fuel t pc lastMsg le).outcome = .timedOut ∨
       (pollLoop v true t0 env fuel t pc lastMsg le).outcome = .notFound ∨
       (pollLoop v true t0 env fuel t pc lastMsg le).outcome = .wfError) →
      (pollLoop v true t0 env fuel t pc lastMsg le).events.any Event.isMessage = true := by
  intro fuel
  induction fuel with
  | zero =>
    intro t pc lastMsg le h
    by_cases htime : v.max_poll_time < t
    · rw [pollLoop, if_pos htime]
      simp [emit_message, Event.isMessage]
    · rw [pollLoop, if_neg htime] at h
      simp at h
  | succ n ih =>
    intro t pc lastMsg le h
    by_cases htime : v.max_poll_time < t
    · rw [pollLoop, if_pos htime]
      simp [emit_message, Event.isMessage]
    · rw [pollLoop, if_neg htime] at h ⊢
      revert h
      cases henv : env pc with
      | netErr =>
        intro h
        simp only [withEvents_outcome] at h
        simp [List.any_append, ih _ _ _ _ h]
      | resp hs body =>
        intro h
        dsimp only at h ⊢
        by_cases hst : hs = 200
        · subst hst
          rw [if_pos rfl] at h ⊢
          cases body with
          | obj o =>
            dsimp only at h ⊢
            have hok := pollStep_spec v true (t0 + t) pc lastMsg le o
            revert h
            cases hstep : pollStep v true (t0 + t) pc lastMsg le o with
            | next lm le2 evs =>
              intro h
              simp only [withEvents_outcome] at h
              simp [List.any_append, ih _ _ _ _ h]
            | stop evs le2 out =>
              intro h
              rw [hstep] at hok
              dsimp only at h ⊢
              rcases h with h | h | h
              · exact absurd h hok.1
              · simpa using hok.2.2 rfl (.inl h)
              · simpa using hok.2.2 rfl (.inr h)
          | null => simp at h
          | bool b => simp at h
          | num nn => simp at h
          | str s => simp at h
          | arr xs => simp at h
          | float m e => simp at h
          | nan => simp at h
          | inf b => simp at h
        · rw [if_neg hst] at h ⊢
          exact ih _ _ _ _ h

/-- The timeout outcome satisfies the elapsed/attempt bounds: the loop times
out precisely when `fetches * interval` first exceeds the budget, the
previous attempt was still within it, and the exit time is
`fetches * interval`. -/
theorem pollLoop_timeout_bounds (v : Valves) (em : Bool) (t0 : Int) (env : Nat → PollEvent)
    (hI : 0 < v.poll_interval) (hM : 0 ≤ v.max_poll_time) :
    ∀ (fuel : Nat) (t : Int) (pc : Nat) (lastMsg : String) (le : Int),
      t = (pc : Int) * v.poll_interval →
      (pc = 0 ∨ ((pc : Int) - 1) * v.poll_interval ≤ v.max_poll_time) →
      (pollLoop v em t0 env fuel t pc lastMsg le).outcome = .timedOut →
      ((pollLoop v em t0 env fuel t pc lastMsg le).fetches : Int) * v.poll_interval
          > v.max_poll_time ∧
      (((pollLoop v em t0 env fuel t pc lastMsg le).fetches : Int) - 1) * v.poll_interval
          ≤ v.max_poll_time ∧
      (pollLoop v em t0 env fuel t pc lastMsg le).tEnd
          = ((pollLoop v em t0 env fuel t pc lastMsg le).fetches : Int) * v.poll_interval := by
  intro fuel
  induction fuel with
  | zero =>
    intro t pc lastMsg le ht hinv hout
    by_cases htime : v.max_poll_time < t
    · rw [pollLoop, if_pos htime]
      dsimp only
      refine ⟨ht ▸ htime, ?_, ht⟩
      rcases hinv with h0 | hprev
      · exfalso
        subst h0
        simp only [Nat.cast_zero, zero_mul] at ht
        rw [ht] at htime
        omega
      · exact hprev
    · rw [pollLoop, if_neg htime] at hout
      simp at hout
  | succ n ih =>
    intro t pc lastMsg le ht hinv hout
    by_cases htime : v.max_poll_time < t
    · rw [pollLoop, if_pos htime] at hout ⊢
      dsimp only
      refine ⟨ht ▸ htime, ?_, ht⟩
      rcases hinv with h0 | hprev
      · exfalso
        subst h0
        simp only [Nat.cast_zero, zero_mul] at ht
        rw [ht] at htime
        omega
      · exact hprev
    · have hnext_t : t + v.poll_interval = ((pc + 1 : Nat) : Int) * v.poll_interval := by
        have hcast : ((pc + 1 : Nat) : Int) * v.poll_interval
            = (pc : Int) * v.poll_interval + v.poll_interval := by push_cast; ring
        rw [hcast, ← ht]
      have hinv2 : pc + 1 = 0 ∨
          (((pc + 1 : Nat) : Int) - 1) * v.poll_interval ≤ v.max_poll_time := by
        right
        have hcast : (((pc + 1 : Nat) : Int) - 1) * v.poll_interval
            = (pc : Int) * v.poll_interval := by push_cast; ring
        rw [hcast, ← ht]
        exact not_lt.mp htime
      rw [pollLoop, if_neg htime] at hout ⊢
      revert hout
      cases henv : env pc with
      | netErr =>
        intro hout
        simp only [withEvents_outcome] at hout
        simp only [withEvents_outcome, withEvents_fetches, withEvents_tEnd]
        exact ih _ _ lastMsg le hnext_t hinv2 hout
      | resp hs body =>
        intro hout
        dsimp only at hout ⊢
        by_cases hst : hs = 200
        · subst hst
          rw [if_pos rfl] at hout ⊢
          cases body with
          | obj o =>
            dsimp only at hout ⊢
            have hok := pollStep_spec v em (t0 + t) pc lastMsg le o
            revert hout
            cases hstep : pollStep v em (t0 + t) pc lastMsg le o with
            | next lm le2 evs =>
              intro hout
              simp only [withEvents_outcome] at hout
              simp only [withEvents_outcome, withEvents_fetches, withEvents_tEnd]
              exact ih _ _ lm le2 hnext_t hinv2 hout
            | stop evs le2 out =>
              intro hout
              rw [hstep] at hok
              dsimp only at hout
              exact absurd hout hok.1
          | null => simp at hout
          | bool b => simp at hout
          | num nn => simp at hout
          | str s => simp at hout
          | arr xs => simp at hout
          | float m e => simp at hout
          | nan => simp at hout
          | inf b => simp at hout
        · rw [if_neg hst] at hout ⊢
          exact ih _ _ lastMsg le hnext_t hinv2 hout

/-- The terminal paths that owe the caller a message-channel explanation
beyond the returned value itself: the exception handler (start-call failure,
parse failure, poll crash) and the polling terminals timeout / not-found /
workflow-error. -/
def failNeedsMessage : PipeOutcome → Bool
  | .caughtError _ => true
  | .polled .timedOut => true
  | .polled .notFound => true
  | .polled .wfError => true
  | _ => false

/-- `poll_for_status` only relays the loop's outcome. -/
@[simp] theorem poll_for_status_outcome (v : Valves) (em : Bool) (eid : String)
    (t0 le : Int) (env : Nat → PollEvent) :
    (poll_for_status v em eid t0 le env).outcome
      = (pollLoop v em t0 env (pollFuel v) 0 0 "" le).outcome := rfl

/-- `poll_for_status` only relays the loop's fetch count. -/
@[simp] theorem poll_for_status_fetches (v : Valves) (em : Bool) (eid : String)
    (t0 le : Int) (env : Nat → PollEvent) :
    (poll_for_status v em eid t0 le env).fetches
      = (pollLoop v em t0 env (pollFuel v) 0 0 "" le).fetches := rfl

/-- `poll_for_status` only relays the loop's exit time. -/
@[simp] theorem poll_for_status_tEnd (v : Valves) (em : Bool) (eid : String)
    (t0 le : Int) (env : Nat → PollEvent) :
    (poll_for_status v em eid t0 le env).tEnd
      = (pollLoop v em t0 env (pollFuel v) 0 0 "" le).tEnd := rfl

/-- With the indicator disabled, a whole poll session delivers no status
event. -/
theorem poll_for_status_no_status (v : Valves) (em : Bool) (eid : String)
    (t0 le : Int) (env : Nat → PollEvent) (hflag : v.enable_status_indicator = false) :
    (poll_for_status v em eid t0 le env).events.all (fun e => !e.isStatus) = true := by
  simp [poll_for_status, List.all_append, pollLoop_no_status v em t0 env hflag]

/-- A poll session ending in timeout, not-found or workflow-error delivered
a message-channel explanation. -/
theorem poll_for_status_fail_message (v : Valves) (eid : String) (t0 le : Int)
    (env : Nat → PollEvent)
    (h : (poll_for_status v true eid t0 le env).outcome = .timedOut ∨
         (poll_for_status v true eid t0 le env).outcome = .notFound ∨
         (poll_for_status v true eid t0 le env).outcome = .wfError) :
    (poll_for_status v true eid t0 le env).events.any Event.isMessage = true := by
  simp only [poll_for_status_outcome] at h
  simp [poll_for_status, List.any_append, pollLoop_fail_message v t0 env _ _ _ _ _ h]

/-- The exception handler always returns `""`. -/
@[simp] theorem pipeHandler_ret (v : Valves) (em : Bool) (pre : List Event) (calls : Nat)
    (now le : Int) (e : String) :
    (pipeHandler v em pre calls now le e).ret = .ok (.str "") := rfl

/-- The exception handler's outcome. -/
@[simp] theorem pipeHandler_outcome (v : Valves) (em : Bool) (pre : List Event) (calls : Nat)
    (now le : Int) (e : String) :
    (pipeHandler v em pre calls now le e).outcome = .caughtError e := rfl

/-- With sink and indicator on, the exception handler delivers a terminal
(`done = true`) status event. -/
theorem pipeHandler_done_status (v : Valves) (pre : List Event) (calls : Nat)
    (now le : Int) (e : String) (hflag : v.enable_status_indicator = true) :
    (pipeHandler v true pre calls now le e).events.any Event.isDoneStatus = true := by
  simp [pipeHandler, emit_status_done v le now _ _ hflag, List.any_append,
    Event.isDoneStatus]

/-- With a sink, the exception handler streams the error on the message
channel. -/
theorem pipeHandler_message (v : Valves) (pre : List Event) (calls : Nat)
    (now le : Int) (e : String) :
    (pipeHandler v true pre calls now le e).events.any Event.isMessage = true := by
  simp [pipeHandler, emit_message, List.any_append, Event.isMessage]

/-- With the indicator off, the exception handler emits no status event
(only the message), so a status-free prefix stays status-free. -/
theorem pipeHandler_no_status (v : Valves) (em : Bool) (pre : List Event) (calls : Nat)
    (now le : Int) (e : String) (hflag : v.enable_status_indicator = false)
    (hpre : pre.all (fun ev => !ev.isStatus) = true) :
    (pipeHandler v em pre calls now le e).events.all (fun ev => !ev.isStatus) = true := by
  simp [pipeHandler, emit_status_flag_off v em _ _ _ _ _ hflag, List.all_append, hpre,
    emit_message_no_status]

/-- Which polled outcomes demand a message-channel explanation. -/
theorem failNeedsMessage_polled (po : PollOutcome)
    (h : failNeedsMessage (.polled po) = true) :
    po = .timedOut ∨ po = .notFound ∨ po = .wfError := by
  cases po <;> simp_all [failNeedsMessage]

/-- The invariants of one `pipe` invocation needed by the claims: polled
outcomes return `""`; every returning path delivers a `done = true` status
(sink and indicator on); the failure paths deliver a message-channel
explanation (sink on); and with the indicator off no status event at all is
delivered. -/
def pipeOk (flag em : Bool) (r : PipeResult) : Prop :=
  (∀ po, po ≠ .fuelOut → r.outcome = .polled po → r.ret = .ok (.str "")) ∧
  (em = true → flag = true → (∀ e, r.outcome ≠ .raisedOut e) →
    r.outcome ≠ .polled .fuelOut → r.events.any Event.isDoneStatus = true) ∧
  (em = true → failNeedsMessage r.outcome = true →
    r.events.any Event.isMessage = true) ∧
  (flag = false → r.events.all (fun e => !e.isStatus) = true)

/-- `pipeOk` holds of the exception-handler result when the events already
delivered are status-free whenever the indicator is off. -/
theorem pipeOk_handler (v : Valves) (em : Bool) (pre : List Event) (calls : Nat)
    (now le : Int) (e : String)
    (hpre : v.enable_status_indicator = false → pre.all (fun ev => !ev.isStatus) = true) :
    pipeOk v.enable_status_indicator em (pipeHandler v em pre calls now le e) := by
  unfold pipeOk
  refine ⟨?_, ?_, ?_, ?_⟩
  · intro po hpo h
    exact nomatch h
  · intro hem hflag _ _
    subst hem
    exact pipeHandler_done_status v pre calls now le e hflag
  · intro hem _
    subst hem
    exact pipeHandler_message v pre calls now le e
  · intro hflag
    exact pipeHandler_no_status v em pre calls now le e hflag (hpre hflag)

/-- Every result of `pipeRun` satisfies `pipeOk`: polled outcomes return
`""`, every returning path delivers a terminal status, failure paths
deliver a message, and a disabled indicator silences the status channel. -/
theorem pipeRun_ok (v : Valves) (em : Bool) (t0 le0 : Int)
    (body : List (String × Json)) (start : StartResult) (penv : Nat → PollEvent) :
    pipeOk v.enable_status_indicator em (pipeRun v em t0 le0 body start penv) := by
  simp only [pipeRun]
  split
  · -- empty message list
    unfold pipeOk
    refine ⟨?_, ?_, ?_, ?_⟩
    · intro po hpo h
      exact nomatch h
    · intro hem hflag _ _
      subst hem
      simp [emit_status_done, hflag, List.any_append, Event.isDoneStatus]
    · intro hem hmsg
      exact nomatch hmsg
    · intro hflag
      simp [emit_status_flag_off v em _ _ _ _ _ hflag]
  · split
    · -- messages[-1]["content"] raised
      unfold pipeOk
      refine ⟨?_, ?_, ?_, ?_⟩
      · intro po hpo h
        exact nomatch h
      · intro hem hflag hraised _
        exact absurd rfl (hraised _)
      · intro hem hmsg
        exact nomatch hmsg
      · intro hflag
        simp [emit_status_flag_off v em _ _ _ _ _ hflag]
    · -- question extracted; now the try block
      split
      · -- start call raised
        exact pipeOk_handler v em _ 1 t0 _ _
          (fun hflag => by simp [emit_status_flag_off v em _ _ _ _ _ hflag])
      · -- start responded
        split
        · -- non-2xx
          exact pipeOk_handler v em _ 1 t0 _ _
            (fun hflag => by simp [emit_status_flag_off v em _ _ _ _ _ hflag])
        · split
          · -- parse_response_text raised
            exact pipeOk_handler v em _ 1 t0 _ _
              (fun hflag => by simp [emit_status_flag_off v em _ _ _ _ _ hflag])
          · -- parsed
            split
            · -- polling gate taken
              split
              · -- executionId is a string: case on the poll outcome
                split
                · -- poll raised
                  exact pipeOk_handler v em _ _ _ _ _
                    (fun hflag => by
                      simp [emit_status_flag_off v em _ _ _ _ _ hflag, List.all_append,
                        poll_for_status_no_status v em _ t0 _ penv hflag])
                · -- fuel exhausted (model marker)
                  unfold pipeOk
                  refine ⟨?_, ?_, ?_, ?_⟩
                  · intro po hpo h
                    injection h with h2
                    exact absurd h2.symm hpo
                  · intro hem hflag _ hne
                    exact absurd rfl hne
                  · intro hem hmsg
                    exact nomatch hmsg
                  · intro hflag
                    simp [emit_status_flag_off v em _ _ _ _ _ hflag, List.all_append,
                      poll_for_status_no_status v em _ t0 _ penv hflag]
                · -- normal poll outcome
                  unfold pipeOk
                  refine ⟨?_, ?_, ?_, ?_⟩
                  · intro po hpo h
                    rfl
                  · intro hem hflag _ _
                    subst hem
                    simp [emit_status_done, hflag, List.any_append, Event.isDoneStatus]
                  · intro hem hmsg
                    subst hem
                    have hfail := failNeedsMessage_polled _ hmsg
                    have hmsg2 := poll_for_status_fail_message _ _ _ _ _ hfail
                    simp [List.any_append, hmsg2]
                  · intro hflag
                    simp [emit_status_flag_off v em _ _ _ _ _ hflag, List.all_append,
                      poll_for_status_no_status v em _ t0 _ penv hflag]
              · -- executionId truthy but not a string
                exact pipeOk_handler v em _ 1 t0 _ _
                  (fun hflag => by simp [emit_status_flag_off v em _ _ _ _ _ hflag])
            · -- no polling: synchronous completion
              unfold pipeOk
              refine ⟨?_, ?_, ?_, ?_⟩
              · intro po hpo h
                exact nomatch h
              · intro hem hflag _ _
                subst hem
                simp [emit_status_done, hflag, List.any_append, Event.isDoneStatus]
              · intro hem hmsg
                exact nomatch hmsg
              · intro hflag
                simp [emit_status_flag_off v em _ _ _ _ _ hflag]

/-! ## Claim theorems -/

/-- Claim C3 (confirmed): with the indicator enabled and a sink present,
a delivered non-terminal status emission at `t1` suppresses a second
non-terminal emission issued less than `emit_interval` later; a terminal
(`done = true`) emission is always delivered whatever the elapsed time; and
every delivered emission resets `last_emit_time` to the current time. -/
theorem c3_status_throttle (v : Valves) (le t1 t2 : Int) (l1 m1 l2 m2 : String)
    (hflag : v.enable_status_indicator = true)
    (h1 : emit_status v true le t1 l1 m1 false = ([.status l1 m1 false], t1))
    (h2 : t2 - t1 < v.emit_interval) :
    emit_status v true t1 t2 l2 m2 false = ([], t1) ∧
    (∀ l m le3 t3, emit_status v true le3 t3 l m true = ([.status l m true], t3)) ∧
    (∀ l m d le3 t3 evs le4,
      emit_status v true le3 t3 l m d = (evs, le4) → evs ≠ [] → le4 = t3) := by
  refine ⟨?_, ?_, ?_⟩
  · simp [emit_status, hflag, not_le.mpr h2]
  · intro l m le3 t3
    simp [emit_status, hflag]
  · intro l m d le3 t3 evs le4 h hne
    unfold emit_status at h
    split at h
    · exact (Prod.mk.injEq .. ▸ h).2.symm ▸ rfl
    · exact absurd (Prod.mk.injEq .. ▸ h).1.symm hne

/-- Witness for C3 at a concrete configuration and concrete times. -/
theorem c3_status_throttle_witness :
    emit_status {} true 100 100 "info" "b" false = ([], 100) := by
  have h := c3_status_throttle {} 0 100 100 "info" "a" "info" "b" rfl (by decide) (by decide)
  exact h.1

/-- Claim C2 (corrected): the claim asserts that an object containing the
configured response field yields that field's value with *no* execution
handle regardless of other fields; but the source reads `executionId` out of
the object first (line 128) and returns it alongside the field value
(line 131), so an object carrying both fields returns a present handle. -/
theorem c2_counterexample :
    parse_response_text "output" "\x7b\"output\":\"Paris\",\"executionId\":\"ex1\"\x7d"
      = .ok (.str "Paris", .str "ex1") ∧ Json.str "ex1" ≠ Json.null :=
  ⟨rfl, fun h => nomatch h⟩

/-- Claim C2 (amended): for every input parsing as a JSON object that
contains the configured response field, the interpreter returns that field's
value as content together with the object's `executionId` value as the
handle — absent exactly when the object has no (non-null) `executionId`. -/
theorem c2_amended (field s : String) (o : List (String × Json))
    (hp : jparse (pyStrip s) = some (.obj o)) (hm : jMem o field = true) :
    parse_response_text field s = .ok (jIdx o field, jGetD o "executionId" .null) := by
  simp only [parse_response_text, wholeDoc, hp]
  simp [hm, jIdx]

/-- Witness for C2 (amended) at the spec's own example, where the handle is
indeed absent because the object has no `executionId` field. -/
theorem c2_amended_witness :
    parse_response_text "output" "\x7b\"output\":\"Paris\"\x7d"
      = .ok (.str "Paris", Json.null) := by
  have h := c2_amended "output" "\x7b\"output\":\"Paris\"\x7d"
    [("output", .str "Paris")] rfl rfl
  simpa using h

/-- NDJSON body whose lines parse fine but yield no content: first line
carries an `executionId`, second is a `begin` event. -/
def eidNoContentBody : String :=
  "\x7b\"executionId\":\"a\"\x7d\n\x7b\"type\":\"begin\"\x7d"

/-- Claim C5 (counterexample): the interpreter is not total. A body whose
lines parse to non-dict JSON values raises `AttributeError` from
`event.get` (source line 150, not caught by the line-166 handler, which
catches only `json.JSONDecodeError`) — both for int lines (`5`, `6`) and
for fractional numerals (`1.5`, `2.5`, which `json.loads` decodes to Python
floats); and when the NDJSON tier collected an `executionId` but produced
no content, the final fallback returns that handle, not an absent one. -/
theorem c5_counterexample :
    parse_response_text "output" "5\n6"
      = .error "AttributeError: .get on a non-dict JSON value" ∧
    parse_response_text "output" "1.5\n2.5"
      = .error "AttributeError: .get on a non-dict JSON value" ∧
    parse_response_text "output" eidNoContentBody
      = .ok (.str eidNoContentBody, .str "a") ∧
    Json.str "a" ≠ Json.null := by
  refine ⟨rfl, rfl, ?_, fun h => nomatch h⟩
  show parse_response_text "output" eidNoContentBody
    = .ok (.str eidNoContentBody, .str "a")
  rfl

/-- Claim C5 (amended): the interpreter returns a result without raising on
every input whose non-blank NDJSON lines parse to JSON objects (or fail to
parse) and contribute only string contents; whenever the whole-document tier
falls through and the line tier accumulates no content, the result is the
original trimmed text together with whatever `executionId` the line tier
collected (absent when none was seen); the plain-text example returns the
input unchanged with no handle. -/
theorem c5_amended :
    (∀ field s, (∀ l ∈ pySplitNl (pyStrip s), lineSafe l = true) →
        ∃ r, parse_response_text field s = .ok r) ∧
    (∀ field s eid0 eid, wholeDoc field (pyStrip s) = .inr eid0 →
        (strContains (pyStrip s) "\n" || pyStartsWith (pyStrip s) "\x7b\"type\":") = true →
        ndjsonFold (pySplitNl (pyStrip s)) [] eid0 = .ok ([], eid) →
        parse_response_text field s = .ok (.str (pyStrip s), eid)) ∧
    (∀ field s eid0, wholeDoc field (pyStrip s) = .inr eid0 →
        (strContains (pyStrip s) "\n" || pyStartsWith (pyStrip s) "\x7b\"type\":") = false →
        parse_response_text field s = .ok (.str (pyStrip s), eid0)) ∧
    parse_response_text "output" "plain text, no braces"
      = .ok (.str "plain text, no braces", .null) := by
  refine ⟨?_, ?_, ?_, rfl⟩
  · intro field s hsafe
    cases hw : wholeDoc field (pyStrip s) with
    | inl r => exact ⟨r, by simp [parse_response_text, hw]⟩
    | inr eid0 =>
      by_cases hgate :
          (strContains (pyStrip s) "\n" || pyStartsWith (pyStrip s) "\x7b\"type\":") = true
      · obtain ⟨parts, eid, hfold, hstr⟩ :=
          ndjsonFold_safe (pySplitNl (pyStrip s)) [] eid0 hsafe rfl
        by_cases hemp : parts.isEmpty
        · exact ⟨(Json.str (pyStrip s), eid),
            by simp [parse_response_text, hw, hgate, hfold, hemp]⟩
        · obtain ⟨j, hj⟩ := pyJoin_ok parts hstr
          exact ⟨(Json.str j, eid),
            by simp [parse_response_text, hw, hgate, hfold, hemp, hj]⟩
      · rw [Bool.not_eq_true] at hgate
        exact ⟨(Json.str (pyStrip s), eid0),
          by simp [parse_response_text, hw, hgate]⟩
  · intro field s eid0 eid hw hgate hfold
    simp [parse_response_text, hw, hgate, hfold]
  · intro field s eid0 hw hgate
    simp [parse_response_text, hw, hgate]

/-- Witness for C5 (amended): totality on a concrete safe NDJSON body. -/
theorem c5_amended_witness :
    ∃ r, parse_response_text "output"
      "\x7b\"type\":\"item\",\"content\":\"a\"\x7d\nRAW" = .ok r :=
  c5_amended.1 "output" "\x7b\"type\":\"item\",\"content\":\"a\"\x7d\nRAW" (by decide)

/-- The two-item NDJSON stream from the spec's example. -/
def itemsABBody : String :=
  "\x7b\"type\":\"item\",\"content\":\"a\"\x7d\n\x7b\"type\":\"item\",\"content\":\"b\"\x7d"

/-- The same stream with an unparseable plain-text line interleaved. -/
def itemsRawBody : String :=
  "\x7b\"type\":\"item\",\"content\":\"a\"\x7d\nRAW line\n\x7b\"type\":\"item\",\"content\":\"b\"\x7d"

/-- Claim C6 (confirmed): the parts accumulated by the NDJSON tier are
exactly the per-line contributions in document order (`List.flatMap`), with
an unparseable line contributing its raw text verbatim in place; the two
item lines `"a"`,`"b"` concatenate with no separator to `"ab"`, and an
interleaved raw line lands verbatim between them. -/
theorem c6_ndjson_order :
    (∀ (ls : List String) (eid0 : Json) (parts : List Json) (eid : Json),
        ndjsonFold ls [] eid0 = .ok (parts, eid) → parts = ls.flatMap lineParts) ∧
    parse_response_text "output" itemsABBody = .ok (.str "ab", .null) ∧
    parse_response_text "output" itemsRawBody = .ok (.str "aRAW lineb", .null) := by
  refine ⟨?_, rfl, rfl⟩
  intro ls eid0 parts eid h
  simpa using (ndjsonFold_ok_parts_eid ls [] eid0 parts eid h).1

/-- Witness for C6 at the spec's concrete stream. -/
theorem c6_ndjson_order_witness :
    [Json.str "a", Json.str "b"]
      = (pySplitNl itemsABBody).flatMap lineParts :=
  c6_ndjson_order.1 (pySplitNl itemsABBody) .null [Json.str "a", Json.str "b"] .null rfl

/-- NDJSON body whose two lines both carry an `executionId` field, the
second one empty (falsy). -/
def eidLastFalsyBody : String :=
  "\x7b\"executionId\":\"a\"\x7d\n\x7b\"executionId\":\"\"\x7d"

/-- Claim C7 (counterexample): the last line carries the `executionId` field
with value `""`, yet the interpreter returns the earlier `"a"`: only truthy
values overwrite the handle (source line 153), so the claim's "the handle
equals the last one encountered in document order" fails for falsy values. -/
theorem c7_counterexample :
    parse_response_text "output" eidLastFalsyBody
      = .ok (.str eidLastFalsyBody, .str "a") ∧
    jparse "\x7b\"executionId\":\"\"\x7d" = some (.obj [("executionId", .str "")]) ∧
    Json.str "a" ≠ Json.str "" := by
  refine ⟨?_, rfl, fun h => by injection h with h2; exact absurd h2 (by decide)⟩
  show parse_response_text "output" eidLastFalsyBody
    = .ok (.str eidLastFalsyBody, .str "a")
  rfl

/-- Claim C7 (amended): across an NDJSON pass the returned handle is the
last *truthy* `executionId` encountered in document order (falsy occurrences
neither set nor clear it), and once set (truthy) it is never cleared; the
interpreter's returned handle equals the fold's handle whenever it returns. -/
theorem c7_amended (field s : String) (eid0 : Json) (parts : List Json) (eid : Json)
    (hw : wholeDoc field (pyStrip s) = .inr eid0)
    (hgate : (strContains (pyStrip s) "\n" || pyStartsWith (pyStrip s) "\x7b\"type\":") = true)
    (hfold : ndjsonFold (pySplitNl (pyStrip s)) [] eid0 = .ok (parts, eid)) :
    eid = (((pySplitNl (pyStrip s)).reverse.findSome? lineEid).getD eid0) ∧
    (truthy eid0 = true → truthy eid = true) ∧
    (∀ c e2, parse_response_text field s = .ok (c, e2) → e2 = eid) := by
  have hm := (ndjsonFold_ok_parts_eid _ [] eid0 parts eid hfold).2
  refine ⟨hm.trans (foldl_lineEid_eq_findSome _ eid0), ?_, ?_⟩
  · intro h0
    rw [hm]
    exact foldl_lineEid_truthy _ eid0 h0
  · intro c e2 h
    simp [parse_response_text, hw, hgate, hfold] at h
    by_cases hemp : parts.isEmpty
    · simp [hemp] at h
      exact h.2.symm
    · simp only [hemp, Bool.false_eq_true, if_false] at h
      cases hj : pyJoin parts with
      | ok j =>
        rw [hj] at h
        simp at h
        exact h.2.symm
      | error e => rw [hj] at h; exact absurd h (by simp)

/-- Witness for C7 (amended) on the two-executionId body: the fold keeps the
truthy `"a"` from the first line. -/
theorem c7_amended_witness :
    Json.str "a"
      = (((pySplitNl (pyStrip eidLastFalsyBody)).reverse.findSome? lineEid).getD Json.null) :=
  (c7_amended "output" eidLastFalsyBody .null [] (.str "a") rfl rfl rfl).1


/-- A status-endpoint answer reporting a "not found" error: HTTP 200 with a
JSON object whose `error` is a string containing "not found"
case-insensitively. -/
def notFoundResp (pe : PollEvent) : Prop :=
  ∃ (o : List (String × Json)) (e : String), pe = .resp 200 (.obj o) ∧
    jGetD o "error" .null = .str e ∧ strContains (lowerStr e) "not found" = true

/-- The behaviour of one step on a "not found" error is gated on the total
attempt counter: tolerated below 3 total attempts, terminal from the 3rd
attempt on. -/
theorem pollStep_notfound (v : Valves) (em : Bool) (now : Int) (pc : Nat)
    (lastMsg : String) (le : Int) (o : List (String × Json)) (e : String)
    (herr : jGetD o "error" .null = .str e)
    (hcont : strContains (lowerStr e) "not found" = true) :
    (pc + 1 < 3 → pollStep v em now pc lastMsg le o = .next lastMsg le []) ∧
    (¬ pc + 1 < 3 → pollStep v em now pc lastMsg le o
      = .stop (emit_message em
          "\n\n⚠️ **Workflow execution not found.** It may have completed or expired.\n")
          le .notFound) := by
  have hne : e ≠ "" := by
    intro he
    subst he
    exact absurd hcont (by decide)
  refine ⟨fun h3 => ?_, fun h3 => ?_⟩
  · simp [pollStep, herr, truthy, hne, hcont, h3]
  · simp [pollStep, herr, truthy, hne, hcont, h3]

/-- One tolerated "not found" iteration: pause and keep polling. -/
theorem pollLoop_notfound_tolerated (v : Valves) (em : Bool) (t0 : Int)
    (env : Nat → PollEvent) (fuel : Nat) (t : Int) (pc : Nat) (lastMsg : String) (le : Int)
    (htime : ¬ v.max_poll_time < t) (hpc : pc + 1 < 3) (hresp : notFoundResp (env pc)) :
    pollLoop v em t0 env (fuel + 1) t pc lastMsg le
      = (pollLoop v em t0 env fuel (t + v.poll_interval) (pc + 1) lastMsg le).withEvents [] := by
  obtain ⟨o, e, hpe, herr, hcont⟩ := hresp
  rw [pollLoop, if_neg htime]
  try dsimp only
  rw [hpe]
  try dsimp only
  rw [if_pos rfl]
  rw [(pollStep_notfound v em (t0 + t) pc lastMsg le o e herr hcont).1 hpc]

/-- A "not found" error on the 3rd or later attempt is terminal. -/
theorem pollLoop_notfound_terminal (v : Valves) (em : Bool) (t0 : Int)
    (env : Nat → PollEvent) (fuel : Nat) (t : Int) (pc : Nat) (lastMsg : String) (le : Int)
    (htime : ¬ v.max_poll_time < t) (hpc : ¬ pc + 1 < 3) (hresp : notFoundResp (env pc)) :
    pollLoop v em t0 env (fuel + 1) t pc lastMsg le
      = ⟨emit_message em
          "\n\n⚠️ **Workflow execution not found.** It may have completed or expired.\n",
          pc + 1, t, le, .notFound⟩ := by
  obtain ⟨o, e, hpe, herr, hcont⟩ := hresp
  rw [pollLoop, if_neg htime]
  try dsimp only
  rw [hpe]
  try dsimp only
  rw [if_pos rfl]
  rw [(pollStep_notfound v em (t0 + t) pc lastMsg le o e herr hcont).2 hpc]

/-- Status endpoint for the C1 counterexample: two error-free statuses, then
a single "Not Found" error on the third fetch. -/
def c1cexEnv : Nat → PollEvent := fun n =>
  if n < 2 then .resp 200 (.obj []) else .resp 200 (.obj [("error", .str "Not Found")])

/-- Claim C1 (counterexample): the claim's per-session strike counter does
not exist; the gate uses `poll_count`, which counts every fetch attempt. In
this session the first two fetches return error-free statuses and only the
third returns "Not Found", yet the session terminates with `NotFoundTerminal`
after that single "not found" error — not after 3 consecutive ones. -/
theorem c1_counterexample :
    (poll_for_status {} true "ex-1" 100 0 c1cexEnv).outcome = .notFound ∧
    (poll_for_status {} true "ex-1" 100 0 c1cexEnv).fetches = 3 ∧
    c1cexEnv 0 = .resp 200 (.obj []) ∧ c1cexEnv 1 = .resp 200 (.obj []) ∧
    c1cexEnv 2 = .resp 200 (.obj [("error", .str "Not Found")]) :=
  ⟨rfl, rfl, rfl, rfl, rfl⟩

/-- Claim C1 (amended): the "not found" tolerance is gated on the total
fetch-attempt counter `poll_count` (incremented on every attempt, whatever
the response): a "not found" status error is tolerated — pause, keep polling
— only while fewer than 3 total attempts have been made, and is terminal
from the 3rd attempt on. Consequently, when every attempt from the session
start reports "not found", exactly 3 such errors occur before
`NotFoundTerminal` and no 4th fetch is attempted. -/
theorem c1_amended (v : Valves) (em : Bool) (eid : String) (t0 le : Int)
    (env : Nat → PollEvent) (hI : 0 < v.poll_interval)
    (hM : 2 * v.poll_interval ≤ v.max_poll_time)
    (h0 : notFoundResp (env 0)) (h1 : notFoundResp (env 1)) (h2 : notFoundResp (env 2)) :
    (poll_for_status v em eid t0 le env).outcome = .notFound ∧
    (poll_for_status v em eid t0 le env).fetches = 3 ∧
    (∀ (now : Int) (pc : Nat) (lastMsg : String) (le2 : Int)
        (o : List (String × Json)) (e : String),
      jGetD o "error" .null = .str e →
      strContains (lowerStr e) "not found" = true →
      (pc + 1 < 3 → pollStep v em now pc lastMsg le2 o = .next lastMsg le2 []) ∧
      (¬ pc + 1 < 3 → pollStep v em now pc lastMsg le2 o
        = .stop (emit_message em
            "\n\n⚠️ **Workflow execution not found.** It may have completed or expired.\n")
            le2 .notFound)) := by
  have hM0 : ¬ v.max_poll_time < (0 : Int) := by linarith
  have hMI : ¬ v.max_poll_time < 0 + v.poll_interval := by linarith
  have hM2I : ¬ v.max_poll_time < 0 + v.poll_interval + v.poll_interval := by linarith
  obtain ⟨k, hk⟩ : ∃ k, pollFuel v = k + 3 := by
    have hle : v.poll_interval.toNat ≤ v.max_poll_time.toNat := by omega
    have h1' : 1 ≤ v.max_poll_time.toNat / v.poll_interval.toNat :=
      (Nat.one_le_div_iff (by omega)).mpr hle
    exact ⟨v.max_poll_time.toNat / v.poll_interval.toNat - 1, by unfold pollFuel; omega⟩
  have s0 := pollLoop_notfound_tolerated v em t0 env (k + 2) 0 0 "" le hM0 (by omega) h0
  have s1 := pollLoop_notfound_tolerated v em t0 env (k + 1) (0 + v.poll_interval) (0 + 1)
    "" le hMI (by omega) h1
  have s2 := pollLoop_notfound_terminal v em t0 env k (0 + v.poll_interval + v.poll_interval)
    (0 + 1 + 1) "" le hM2I (by omega) h2
  have hrun : pollLoop v em t0 env (pollFuel v) 0 0 "" le
      = (((⟨emit_message em
            "\n\n⚠️ **Workflow execution not found.** It may have completed or expired.\n",
            0 + 1 + 1 + 1, 0 + v.poll_interval + v.poll_interval, le,
            .notFound⟩ : PollResult).withEvents []).withEvents []) := by
    rw [hk]
    rw [show k + 3 = (k + 2) + 1 from rfl]
    rw [s0, s1, s2]
  refine ⟨?_, ?_, fun now pc lastMsg le2 o e herr hcont =>
    pollStep_notfound v em now pc lastMsg le2 o e herr hcont⟩
  · simp [poll_for_status_outcome, hrun]
  · simp [poll_for_status_fetches, hrun]

/-- Witness for C1 (amended) at a concrete configuration: three straight
"not found" responses end the session as `notFound` after exactly 3 fetches. -/
theorem c1_amended_witness :
    (poll_for_status {} true "ex-1" 100 0
      (fun _ => .resp 200 (.obj [("error", .str "not found")]))).outcome = .notFound ∧
    (poll_for_status {} true "ex-1" 100 0
      (fun _ => .resp 200 (.obj [("error", .str "not found")]))).fetches = 3 := by
  have h := c1_amended {} true "ex-1" 100 0
    (fun _ => .resp 200 (.obj [("error", .str "not found")]))
    (by decide) (by decide)
    ⟨[("error", .str "not found")], "not found", rfl, rfl, by decide⟩
    ⟨[("error", .str "not found")], "not found", rfl, rfl, by decide⟩
    ⟨[("error", .str "not found")], "not found", rfl, rfl, by decide⟩
  exact ⟨h.1, h.2.1⟩

/-- Claim C4 (counterexample): the empty-message-list rejection is a
terminal path that emits the final `done = true` status but *no*
message-channel explanation (its explanation is only the returned string),
refuting "every terminal path emits both". -/
theorem c4_counterexample :
    (pipeRun {} true 100 0 [("messages", .arr [])] (.resp 200 "x") (fun _ => .netErr)).outcome
      = .emptyRejected ∧
    (pipeRun {} true 100 0 [("messages", .arr [])] (.resp 200 "x")
      (fun _ => .netErr)).events.any Event.isDoneStatus = true ∧
    (pipeRun {} true 100 0 [("messages", .arr [])] (.resp 200 "x")
      (fun _ => .netErr)).events.all (fun e => !e.isMessage) = true :=
  ⟨rfl, rfl, rfl⟩

/-- Claim C4 (amended): with a sink present and the indicator enabled, every
returning terminal path delivers a final `done = true` status event, and the
caught-exception (start-call failure, parse failure, poll crash), timeout,
not-found and workflow-error paths additionally deliver a message-channel
explanation; the empty-message rejection and the success paths deliver only
the terminal status, their explanation being the returned or streamed
content. -/
theorem c4_amended (v : Valves) (t0 le0 : Int) (body : List (String × Json))
    (start : StartResult) (penv : Nat → PollEvent)
    (hflag : v.enable_status_indicator = true) :
    ((∀ e, (pipeRun v true t0 le0 body start penv).outcome ≠ .raisedOut e) →
      (pipeRun v true t0 le0 body start penv).outcome ≠ .polled .fuelOut →
      (pipeRun v true t0 le0 body start penv).events.any Event.isDoneStatus = true) ∧
    (failNeedsMessage (pipeRun v true t0 le0 body start penv).outcome = true →
      (pipeRun v true t0 le0 body start penv).events.any Event.isMessage = true) := by
  have h := pipeRun_ok v true t0 le0 body start penv
  exact ⟨fun h1 h2 => h.2.1 rfl hflag h1 h2, fun hm => h.2.2.1 rfl hm⟩

/-- Witness for C4 (amended) on a failing start call: both the terminal
status and the message explanation are delivered. -/
theorem c4_amended_witness :
    (pipeRun {} true 100 0 [("messages", .arr [.obj [("content", .str "q")]])]
      (.raised "boom") (fun _ => .netErr)).events.any Event.isDoneStatus = true ∧
    (pipeRun {} true 100 0 [("messages", .arr [.obj [("content", .str "q")]])]
      (.raised "boom") (fun _ => .netErr)).events.any Event.isMessage = true := by
  have h := c4_amended {} 100 0 [("messages", .arr [.obj [("content", .str "q")]])]
    (.raised "boom") (fun _ => .netErr) rfl
  exact ⟨h.1 (fun e he => nomatch he) (fun he => nomatch he), h.2 rfl⟩

/-- Claim C8 (confirmed): a session ending in `Timeout` made `fetches`
attempts with `fetches * interval` just past the budget and the previous
attempt still within it; exits at elapsed `fetches * interval`; streams the
timeout notice on the message channel; as soon as elapsed exceeds the
budget the loop returns immediately (no further fetch, the notice the only
event); and a timed-out polled invocation returns empty content. -/
theorem c8_timeout (v : Valves) (em : Bool) (eid : String) (t0 le : Int)
    (env : Nat → PollEvent) (hI : 0 < v.poll_interval) (hM : 0 ≤ v.max_poll_time)
    (hout : (poll_for_status v em eid t0 le env).outcome = .timedOut) :
    ((poll_for_status v em eid t0 le env).fetches : Int) * v.poll_interval
        > v.max_poll_time ∧
    (((poll_for_status v em eid t0 le env).fetches : Int) - 1) * v.poll_interval
        ≤ v.max_poll_time ∧
    (poll_for_status v em eid t0 le env).tEnd
        = ((poll_for_status v em eid t0 le env).fetches : Int) * v.poll_interval ∧
    (em = true → (poll_for_status v em eid t0 le env).events.any Event.isMessage = true) ∧
    (∀ (fuel : Nat) (t : Int) (pc : Nat) (lastMsg : String) (le2 : Int),
      v.max_poll_time < t →
      pollLoop v em t0 env fuel t pc lastMsg le2
        = ⟨emit_message em ("\n\n⏱️ **Workflow timed out** after " ++ toString t
            ++ "s. It may still be running in the background.\n"), pc, t, le2, .timedOut⟩) ∧
    (∀ (v2 : Valves) (em2 : Bool) (t02 le02 : Int) (body2 : List (String × Json))
        (start2 : StartResult) (penv2 : Nat → PollEvent),
      (pipeRun v2 em2 t02 le02 body2 start2 penv2).outcome = .polled .timedOut →
      (pipeRun v2 em2 t02 le02 body2 start2 penv2).ret = .ok (.str "")) := by
  have hb := pollLoop_timeout_bounds v em t0 env hI hM (pollFuel v) 0 0 "" le
    (by simp) (.inl rfl) (by simpa using hout)
  refine ⟨by simpa using hb.1, by simpa using hb.2.1, by simpa using hb.2.2, ?_, ?_, ?_⟩
  · intro hem
    subst hem
    exact poll_for_status_fail_message v eid t0 le env (.inl hout)
  · intro fuel t pc lastMsg le2 ht
    rw [pollLoop.eq_def]
    dsimp only
    rw [if_pos ht]
  · intro v2 em2 t02 le02 body2 start2 penv2 hpo
    exact (pipeRun_ok v2 em2 t02 le02 body2 start2 penv2).1 .timedOut (by decide) hpo

/-- Witness for C8 at a concrete configuration (interval 5s, budget 7s,
unreachable endpoint): timeout after 2 fetches, 10 > 7 and 5 ≤ 7. -/
theorem c8_timeout_witness :
    ((poll_for_status { poll_interval := 5, max_poll_time := 7 } true "ex" 100 0
        (fun _ => .netErr)).fetches : Int) * 5 > 7 ∧
    (poll_for_status { poll_interval := 5, max_poll_time := 7 } true "ex" 100 0
        (fun _ => .netErr)).events.any Event.isMessage = true := by
  have h := c8_timeout { poll_interval := 5, max_poll_time := 7 } true "ex" 100 0
    (fun _ => .netErr) (by decide) (by decide) rfl
  exact ⟨by simpa using h.1, h.2.2.2.1 rfl⟩

/-- Claim C9 (confirmed): with a sink present and the indicator enabled, an
empty inbound message list makes `pipe` return the fixed diagnostic string,
make no upstream HTTP call, and deliver exactly one terminal (`done = true`)
status event — the error status carrying the same diagnostic. -/
theorem c9_empty_messages (v : Valves) (t0 le0 : Int) (body : List (String × Json))
    (start : StartResult) (penv : Nat → PollEvent)
    (hflag : v.enable_status_indicator = true)
    (hmsg : truthy (jGetD body "messages" (.arr [])) = false) :
    (pipeRun v true t0 le0 body start penv).ret
        = .ok (.str "No messages found in the request body") ∧
    (pipeRun v true t0 le0 body start penv).calls = 0 ∧
    (pipeRun v true t0 le0 body start penv).events.countP Event.isDoneStatus = 1 ∧
    Event.status "error" "No messages found in the request body" true
        ∈ (pipeRun v true t0 le0 body start penv).events ∧
    (pipeRun v true t0 le0 body start penv).outcome = .emptyRejected := by
  rcases emit_status_cases v true le0 t0 "info" "Starting TOGAF Workflow..." false with
    h1 | h1 <;>
    simp [pipeRun, hmsg, h1, emit_status_done, hflag, List.countP_append,
      List.countP_cons, Event.isDoneStatus]

/-- Witness for C9 on a concrete empty body. -/
theorem c9_empty_messages_witness :
    (pipeRun {} true 100 0 [("messages", .arr [])] (.resp 200 "x") (fun _ => .netErr)).ret
      = .ok (.str "No messages found in the request body") ∧
    (pipeRun {} true 100 0 [("messages", .arr [])] (.resp 200 "x") (fun _ => .netErr)).calls
      = 0 := by
  have h := c9_empty_messages {} 100 0 [("messages", .arr [])] (.resp 200 "x")
    (fun _ => .netErr) rfl rfl
  exact ⟨h.1, h.2.1⟩

/-- Claim C10 (confirmed): with the status-indicator valve disabled, the
status channel delivers nothing for any call — terminal or not — and no
status event (in particular no final `done = true` one) reaches the caller
on any path of a `pipe` invocation. -/
theorem c10_indicator_off (v : Valves) (em : Bool) (t0 le0 : Int)
    (body : List (String × Json)) (start : StartResult) (penv : Nat → PollEvent)
    (hflag : v.enable_status_indicator = false) :
    (∀ (le now : Int) (l m : String) (d : Bool), emit_status v em le now l m d = ([], le)) ∧
    (pipeRun v em t0 le0 body start penv).events.all (fun e => !e.isStatus) = true := by
  refine ⟨fun le now l m d => emit_status_flag_off v em le now l m d hflag, ?_⟩
  exact (pipeRun_ok v em t0 le0 body start penv).2.2.2 hflag

/-- Witness for C10 on a concrete run with the indicator disabled. -/
theorem c10_indicator_off_witness :
    emit_status { enable_status_indicator := false } true 0 100 "info" "x" true = ([], 0) ∧
    (pipeRun { enable_status_indicator := false } true 100 0 [("messages", .arr [])]
      (.resp 200 "x") (fun _ => .netErr)).events.all (fun e => !e.isStatus) = true := by
  have h := c10_indicator_off { enable_status_indicator := false } true 100 0
    [("messages", .arr [])] (.resp 200 "x") (fun _ => .netErr) rfl
  exact ⟨h.1 0 100 "info" "x" true, h.2⟩

end N8nPipe
